import Mathlib

/-!
Verification development for the DocParser document-processing pipeline.

The definitions below are shallow embeddings of the TypeScript sources:
  * `backend/src/services/llmService.ts` (`validateLLMResponse`, `calculateConfidence`)
  * `backend/src/services/documentTypeService.ts` (`validateFileForDocumentType`,
    `getPromptTemplate`, `getDefaultPromptTemplate`, `getDefaultDocumentTypes`)
  * `backend/src/services/verificationService.ts` (`parseVerificationResponse`,
    `verifyDocument`)
  * `backend/src/routes/verify.ts` (the batch loop of the POST /api/verify handler)
  * `backend/src/routes/upload.ts` (`calculateYearsBetweenDates`,
    `calculateFixzinssatzInJahren`, the comparison/registration response construction)

JavaScript built-ins used by that code (`JSON.parse`, `JSON.stringify`, `String.trim`,
regex replaces, `Math.round`, `new Date(y, m, d)`) are modelled explicitly; the model
notes, at each definition, which fragment of the host behaviour it covers.
-/

namespace DocParser

/-- JSON values as produced by `JSON.parse`.  Numbers are modelled as integers:
the pipeline's theorems only exercise integral numerals, and JavaScript number
(IEEE-754 double) arithmetic is otherwise out of scope. -/
inductive Json where
  | null : Json
  | bool (b : Bool) : Json
  | num (n : Int) : Json
  | str (s : String) : Json
  | arr (elems : List Json) : Json
  | obj (fields : List (String × Json)) : Json
  deriving Repr

/-- Whitespace recognised by the JSON grammar (`JSON.parse`). -/
def isJsonWs (c : Char) : Bool :=
  c = ' ' || c = '\t' || c = '\n' || c = '\r'

/-- Whitespace for JavaScript `String.prototype.trim` and the regex class `\s`
(ASCII portion; the rarely-seen Unicode space code points are not modelled). -/
def isJsWs (c : Char) : Bool :=
  c = ' ' || c = '\t' || c = '\n' || c = '\r' || c = '\x0b' || c = '\x0c'

/-- Decimal digit test, as the JSON number grammar uses it. -/
def isDigitChar (c : Char) : Bool :=
  '0' ≤ c && c ≤ '9'

/-- Numeric value of a decimal digit character. -/
def digitVal (c : Char) : Nat :=
  c.toNat - 48

/-- Decimal digit character for a value below 10. -/
def digitChar (n : Nat) : Char :=
  Char.ofNat (48 + n)

/-- Decimal numeral of a natural number, most significant digit first
(the rendering `String(n)` / `JSON.stringify` uses for integral numbers). -/
def natToChars (n : Nat) : List Char :=
  if _h : n < 10 then [digitChar n]
  else natToChars (n / 10) ++ [digitChar (n % 10)]
  decreasing_by exact Nat.div_lt_self (by omega) (by omega)

/-- String-body escaping performed by `JSON.stringify`: quote, backslash and the
named control characters.  (Control characters outside the named set would be
escaped as a unicode escape by the host; such strings are excluded from the
round-trip theorems by the `jsonOk` hypothesis.) -/
def escapeChar (c : Char) : List Char :=
  if c = '"' then ['\\', '"']
  else if c = '\\' then ['\\', '\\']
  else if c = '\n' then ['\\', 'n']
  else if c = '\t' then ['\\', 't']
  else if c = '\r' then ['\\', 'r']
  else if c = '\x08' then ['\\', 'b']
  else if c = '\x0c' then ['\\', 'f']
  else [c]

/-- Escape a whole string body. -/
def escapeList (l : List Char) : List Char :=
  (l.map escapeChar).flatten

mutual

/-- Character stream of `JSON.stringify(v)` (no added whitespace, keys in
insertion order — exactly the host behaviour on the modelled fragment). -/
def serializeJson : Json → List Char
  | .null => "null".data
  | .bool true => "true".data
  | .bool false => "false".data
  | .num n => (if n < 0 then ['-'] else []) ++ natToChars n.natAbs
  | .str s => '"' :: escapeList s.data ++ ['"']
  | .arr [] => ['[', ']']
  | .arr (x :: xs) => '[' :: serializeElems x xs ++ [']']
  | .obj [] => ['{', '}']
  | .obj (f :: fs) => '{' :: serializeMembers f fs ++ ['}']
  termination_by v => sizeOf v
  decreasing_by all_goals (simp_wf <;> omega)

/-- Comma-separated serialization of a non-empty element list. -/
def serializeElems : Json → List Json → List Char
  | x, [] => serializeJson x
  | x, y :: ys => serializeJson x ++ ',' :: serializeElems y ys
  termination_by x xs => 1 + sizeOf x + sizeOf xs
  decreasing_by all_goals (simp_wf <;> omega)

/-- Comma-separated serialization of a non-empty member list. -/
def serializeMembers : (String × Json) → List (String × Json) → List Char
  | (k, v), [] => '"' :: escapeList k.data ++ '"' :: ':' :: serializeJson v
  | (k, v), g :: gs =>
      ('"' :: escapeList k.data ++ '"' :: ':' :: serializeJson v) ++
        ',' :: serializeMembers g gs
  termination_by f fs => 1 + sizeOf f + sizeOf fs
  decreasing_by all_goals (simp_wf <;> omega)

end

/-- The string `JSON.stringify(v)`. -/
def jsonStringify (v : Json) : String :=
  ⟨serializeJson v⟩

/-- Drop leading JSON whitespace. -/
def skipWs (l : List Char) : List Char :=
  l.dropWhile isJsonWs

/-- Translate a JSON string escape character. (The `\uXXXX` form is outside the
modelled fragment.) -/
def unescapeChar (c : Char) : Option Char :=
  if c = '"' then some '"'
  else if c = '\\' then some '\\'
  else if c = '/' then some '/'
  else if c = 'n' then some '\n'
  else if c = 't' then some '\t'
  else if c = 'r' then some '\r'
  else if c = 'b' then some '\x08'
  else if c = 'f' then some '\x0c'
  else none

/-- Parse a JSON string body after the opening quote; returns the decoded
characters and the input remaining after the closing quote. -/
def parseStrAux : List Char → Option (List Char × List Char)
  | [] => none
  | c :: rest =>
    if c = '"' then some ([], rest)
    else if c = '\\' then
      match rest with
      | [] => none
      | e :: rest2 =>
        match unescapeChar e with
        | none => none
        | some u =>
          match parseStrAux rest2 with
          | none => none
          | some (s, r) => some (u :: s, r)
    else
      match parseStrAux rest with
      | none => none
      | some (s, r) => some (c :: s, r)

/-- Value of a list of decimal digit characters. -/
def digitsToNat (l : List Char) : Nat :=
  l.foldl (fun a c => 10 * a + digitVal c) 0

/-- Parse a non-empty run of decimal digits. -/
def parseDigits (cs : List Char) : Option (Nat × List Char) :=
  match cs.takeWhile isDigitChar with
  | [] => none
  | ds => some (digitsToNat ds, cs.dropWhile isDigitChar)

mutual

/-- Fuelled recursive-descent parser for a JSON value (the fragment of
`JSON.parse` with integral numerals and the named string escapes). -/
def parseValue : Nat → List Char → Option (Json × List Char)
  | 0, _ => none
  | fuel + 1, input =>
    match skipWs input with
    | [] => none
    | c :: rest =>
      if c = 'n' then
        match rest with
        | 'u' :: 'l' :: 'l' :: r => some (.null, r)
        | _ => none
      else if c = 't' then
        match rest with
        | 'r' :: 'u' :: 'e' :: r => some (.bool true, r)
        | _ => none
      else if c = 'f' then
        match rest with
        | 'a' :: 'l' :: 's' :: 'e' :: r => some (.bool false, r)
        | _ => none
      else if c = '"' then
        match parseStrAux rest with
        | some (s, r) => some (.str ⟨s⟩, r)
        | none => none
      else if c = '-' then
        match parseDigits rest with
        | some (n, r) => some (.num (-(n : Int)), r)
        | none => none
      else if isDigitChar c then
        match parseDigits (c :: rest) with
        | some (n, r) => some (.num (n : Int), r)
        | none => none
      else if c = '[' then
        match skipWs rest with
        | ']' :: r => some (.arr [], r)
        | r =>
          match parseElems fuel r with
          | some (xs, r2) => some (.arr xs, r2)
          | none => none
      else if c = '{' then
        match skipWs rest with
        | '}' :: r => some (.obj [], r)
        | r =>
          match parseMembers fuel r with
          | some (fs, r2) => some (.obj fs, r2)
          | none => none
      else none

/-- Parse the elements of a non-empty array, consuming the closing bracket. -/
def parseElems : Nat → List Char → Option (List Json × List Char)
  | 0, _ => none
  | fuel + 1, input =>
    match parseValue fuel input with
    | none => none
    | some (v, r) =>
      match skipWs r with
      | ',' :: r2 =>
        match parseElems fuel r2 with
        | some (vs, r3) => some (v :: vs, r3)
        | none => none
      | ']' :: r2 => some ([v], r2)
      | _ => none

/-- Parse the members of a non-empty object, consuming the closing brace. -/
def parseMembers : Nat → List Char → Option (List (String × Json) × List Char)
  | 0, _ => none
  | fuel + 1, input =>
    match skipWs input with
    | '"' :: r =>
      match parseStrAux r with
      | none => none
      | some (k, r1) =>
        match skipWs r1 with
        | ':' :: r2 =>
          match parseValue fuel r2 with
          | none => none
          | some (v, r3) =>
            match skipWs r3 with
            | ',' :: r4 =>
              match parseMembers fuel r4 with
              | some (fs, r5) => some ((⟨k⟩, v) :: fs, r5)
              | none => none
            | '}' :: r4 => some ([(⟨k⟩, v)], r4)
            | _ => none
        | _ => none
    | _ => none

end

/-- Model of `JSON.parse` on the documented fragment: parse one value and
require only whitespace after it. -/
def jsonParse (s : String) : Option Json :=
  match parseValue (s.length + 1) s.data with
  | some (v, rest) => if skipWs rest = [] then some v else none
  | none => none

/-- The head of the list does not satisfy the predicate (vacuously true for
the empty list). -/
def headFails (p : Char → Bool) : List Char → Prop
  | [] => True
  | c :: _ => p c = false

theorem takeWhile_append_all {p : Char → Bool} {A rest : List Char}
    (hA : ∀ c ∈ A, p c = true) (hrest : headFails p rest) :
    (A ++ rest).takeWhile p = A ∧ (A ++ rest).dropWhile p = rest := by
  induction A with
  | nil =>
    cases rest with
    | nil => simp
    | cons c t =>
      simp only [headFails] at hrest
      simp [List.takeWhile, List.dropWhile, hrest]
  | cons a A ih =>
    have ha : p a = true := hA a (by simp)
    have ih2 := ih (fun c hc => hA c (by simp [hc]))
    simp [List.takeWhile, List.dropWhile, ha, ih2.1, ih2.2]

theorem natToChars_all_digits (n : Nat) :
    ∀ c ∈ natToChars n, isDigitChar c = true := by
  induction n using Nat.strong_induction_on with
  | _ n ih =>
    rw [natToChars]
    split
    · intro c hc
      simp only [List.mem_singleton] at hc
      subst hc
      rename_i h
      interval_cases n <;> decide
    · intro c hc
      rename_i h
      rcases List.mem_append.mp hc with h1 | h2
      · exact ih (n / 10) (Nat.div_lt_self (by omega) (by omega)) c h1
      · simp only [List.mem_singleton] at h2
        subst h2
        have hm : n % 10 < 10 := Nat.mod_lt n (by omega)
        set m := n % 10 with hmdef
        interval_cases m <;> decide

theorem natToChars_ne_nil (n : Nat) : natToChars n ≠ [] := by
  rw [natToChars]
  split <;> simp

theorem digitsToNat_natToChars (n : Nat) : digitsToNat (natToChars n) = n := by
  induction n using Nat.strong_induction_on with
  | _ n ih =>
    rw [natToChars]
    split
    · rename_i h
      simp only [digitsToNat, List.foldl_cons, List.foldl_nil]
      have hd : digitVal (digitChar n) = n := by interval_cases n <;> decide
      omega
    · rename_i h
      have hsplit : digitsToNat (natToChars (n / 10) ++ [digitChar (n % 10)]) =
          10 * digitsToNat (natToChars (n / 10)) + digitVal (digitChar (n % 10)) := by
        simp [digitsToNat, List.foldl_append]
      rw [hsplit, ih (n / 10) (Nat.div_lt_self (by omega) (by omega))]
      have hm : n % 10 < 10 := Nat.mod_lt n (by omega)
      have hd : digitVal (digitChar (n % 10)) = n % 10 := by
        set m := n % 10 with hmdef
        interval_cases m <;> decide
      omega

theorem parseDigits_natToChars (n : Nat) (rest : List Char)
    (hrest : headFails isDigitChar rest) :
    parseDigits (natToChars n ++ rest) = some (n, rest) := by
  have htake := takeWhile_append_all (natToChars_all_digits n) hrest
  rw [parseDigits, htake.1, htake.2]
  rcases hne : natToChars n with _ | ⟨c, t⟩
  · exact absurd hne (natToChars_ne_nil n)
  · show some (digitsToNat (c :: t), rest) = some (n, rest)
    rw [← hne, digitsToNat_natToChars]

theorem parseStrAux_escape (l : List Char) (rest : List Char) :
    parseStrAux (escapeList l ++ '"' :: rest) = some (l, rest) := by
  induction l with
  | nil =>
    show parseStrAux (escapeList [] ++ '"' :: rest) = some ([], rest)
    rw [show escapeList [] = [] from rfl, List.nil_append, parseStrAux.eq_def]
    simp
  | cons c l ih =>
    have hmap : escapeList (c :: l) = escapeChar c ++ escapeList l := by
      simp [escapeList]
    rw [hmap, List.append_assoc]
    by_cases h1 : c = '"'
    · subst h1
      rw [show escapeChar '"' = ['\\', '"'] from rfl]
      rw [show ('\\' :: '"' :: []) ++ (escapeList l ++ '"' :: rest) =
        '\\' :: '"' :: (escapeList l ++ '"' :: rest) from rfl]
      rw [parseStrAux.eq_def]
      simp [unescapeChar, ih]
    · by_cases h2 : c = '\\'
      · subst h2
        rw [show escapeChar '\\' = ['\\', '\\'] from rfl]
        rw [show ('\\' :: '\\' :: []) ++ (escapeList l ++ '"' :: rest) =
          '\\' :: '\\' :: (escapeList l ++ '"' :: rest) from rfl]
        rw [parseStrAux.eq_def]
        simp [unescapeChar, ih]
      · by_cases h3 : c = '\n'
        · subst h3
          rw [show escapeChar '\n' = ['\\', 'n'] from rfl]
          rw [show ('\\' :: 'n' :: []) ++ (escapeList l ++ '"' :: rest) =
            '\\' :: 'n' :: (escapeList l ++ '"' :: rest) from rfl]
          rw [parseStrAux.eq_def]
          simp [unescapeChar, ih]
        · by_cases h4 : c = '\t'
          · subst h4
            rw [show escapeChar '\t' = ['\\', 't'] from rfl]
            rw [show ('\\' :: 't' :: []) ++ (escapeList l ++ '"' :: rest) =
              '\\' :: 't' :: (escapeList l ++ '"' :: rest) from rfl]
            rw [parseStrAux.eq_def]
            simp [unescapeChar, ih]
          · by_cases h5 : c = '\r'
            · subst h5
              rw [show escapeChar '\r' = ['\\', 'r'] from rfl]
              rw [show ('\\' :: 'r' :: []) ++ (escapeList l ++ '"' :: rest) =
                '\\' :: 'r' :: (escapeList l ++ '"' :: rest) from rfl]
              rw [parseStrAux.eq_def]
              simp [unescapeChar, ih]
            · by_cases h6 : c = '\x08'
              · subst h6
                rw [show escapeChar '\x08' = ['\\', 'b'] from rfl]
                rw [show ('\\' :: 'b' :: []) ++ (escapeList l ++ '"' :: rest) =
                  '\\' :: 'b' :: (escapeList l ++ '"' :: rest) from rfl]
                rw [parseStrAux.eq_def]
                simp [unescapeChar, ih]
              · by_cases h7 : c = '\x0c'
                · subst h7
                  rw [show escapeChar '\x0c' = ['\\', 'f'] from rfl]
                  rw [show ('\\' :: 'f' :: []) ++ (escapeList l ++ '"' :: rest) =
                    '\\' :: 'f' :: (escapeList l ++ '"' :: rest) from rfl]
                  rw [parseStrAux.eq_def]
                  simp [unescapeChar, ih]
                · have hesc : escapeChar c = [c] := by
                    simp [escapeChar, h1, h2, h3, h4, h5, h6, h7]
                  rw [hesc, List.singleton_append, parseStrAux.eq_def]
                  simp [h1, h2, ih]

theorem skipWs_cons {c : Char} (h : isJsonWs c = false) (l : List Char) :
    skipWs (c :: l) = c :: l := by
  simp [skipWs, List.dropWhile, h]

theorem isDigitChar_not_ws {c : Char} (h : isDigitChar c = true) : isJsonWs c = false := by
  by_contra hw
  have hw2 : isJsonWs c = true := by revert hw; cases isJsonWs c <;> simp
  simp only [isJsonWs, Bool.or_eq_true, decide_eq_true_eq] at hw2
  rcases hw2 with ((((rfl | rfl) | rfl) | rfl) | rfl) | rfl <;> simp [isDigitChar] at h

theorem serializeJson_head (v : Json) :
    ∃ c t, serializeJson v = c :: t ∧ isJsonWs c = false ∧ c ≠ ']' ∧ c ≠ '}' := by
  cases v with
  | null => exact ⟨'n', ['u', 'l', 'l'], by simp [serializeJson], by decide, by decide, by decide⟩
  | bool b =>
    cases b
    · exact ⟨'f', ['a', 'l', 's', 'e'], by simp [serializeJson], by decide, by decide, by decide⟩
    · exact ⟨'t', ['r', 'u', 'e'], by simp [serializeJson], by decide, by decide, by decide⟩
  | num n =>
    rcases hne : natToChars n.natAbs with _ | ⟨c, t⟩
    · exact absurd hne (natToChars_ne_nil _)
    · have hdig : isDigitChar c = true := natToChars_all_digits _ c (by rw [hne]; simp)
      have hc1 : c ≠ ']' := fun hEq => by rw [hEq] at hdig; exact absurd hdig (by decide)
      have hc2 : c ≠ '}' := fun hEq => by rw [hEq] at hdig; exact absurd hdig (by decide)
      by_cases hneg : n < 0
      · exact ⟨'-', natToChars n.natAbs,
          by simp [serializeJson, hneg], by decide, by decide, by decide⟩
      · exact ⟨c, t, by simp [serializeJson, hneg, hne], isDigitChar_not_ws hdig, hc1, hc2⟩
  | str s =>
    exact ⟨'"', escapeList s.data ++ ['"'], by simp [serializeJson], by decide, by decide,
      by decide⟩
  | arr elems =>
    cases elems with
    | nil => exact ⟨'[', [']'], by simp [serializeJson], by decide, by decide, by decide⟩
    | cons x xs =>
      exact ⟨'[', serializeElems x xs ++ [']'], by simp [serializeJson], by decide, by decide,
        by decide⟩
  | obj fields =>
    cases fields with
    | nil => exact ⟨'{', ['}'], by simp [serializeJson], by decide, by decide, by decide⟩
    | cons f fs =>
      exact ⟨'{', serializeMembers f fs ++ ['}'], by simp [serializeJson], by decide, by decide,
        by decide⟩

theorem serializeJson_length_pos (v : Json) : 0 < (serializeJson v).length := by
  obtain ⟨c, t, heq, -, -, -⟩ := serializeJson_head v
  simp [heq]

theorem serializeElems_head (x : Json) (xs : List Json) :
    ∃ c t, serializeElems x xs = c :: t ∧ isJsonWs c = false ∧ c ≠ ']' ∧ c ≠ '}' := by
  obtain ⟨c, t, heq, h1, h2, h3⟩ := serializeJson_head x
  cases xs with
  | nil => exact ⟨c, t, by simp [serializeElems, heq], h1, h2, h3⟩
  | cons y ys =>
    exact ⟨c, t ++ ',' :: serializeElems y ys, by simp [serializeElems, heq], h1, h2, h3⟩

theorem serializeMembers_head (f : String × Json) (fs : List (String × Json)) :
    ∃ t, serializeMembers f fs = '"' :: t := by
  rcases f with ⟨k, v⟩
  cases fs with
  | nil => exact ⟨escapeList k.data ++ '"' :: ':' :: serializeJson v, by simp [serializeMembers]⟩
  | cons g gs =>
    exact ⟨(escapeList k.data ++ '"' :: ':' :: serializeJson v) ++ ',' :: serializeMembers g gs,
      by simp [serializeMembers]⟩

theorem serializeElems_length_pos (x : Json) (xs : List Json) :
    0 < (serializeElems x xs).length := by
  obtain ⟨c, t, heq, -, -, -⟩ := serializeElems_head x xs
  simp [heq]

theorem serializeMembers_length_pos (f : String × Json) (fs : List (String × Json)) :
    0 < (serializeMembers f fs).length := by
  obtain ⟨t, heq⟩ := serializeMembers_head f fs
  simp [heq]

theorem headFails_cons {p : Char → Bool} {c : Char} (h : p c = false) (l : List Char) :
    headFails p (c :: l) := h

set_option maxHeartbeats 1000000 in
theorem parse_serialize_mutual (fuel : Nat) :
    (∀ v rest, (serializeJson v).length ≤ fuel → headFails isDigitChar rest →
      parseValue fuel (serializeJson v ++ rest) = some (v, rest)) ∧
    (∀ x xs rest, (serializeElems x xs).length + 1 ≤ fuel →
      parseElems fuel (serializeElems x xs ++ ']' :: rest) = some (x :: xs, rest)) ∧
    (∀ g gs rest, (serializeMembers g gs).length + 1 ≤ fuel →
      parseMembers fuel (serializeMembers g gs ++ '}' :: rest) = some (g :: gs, rest)) := by
  induction fuel with
  | zero =>
    refine ⟨fun v rest hlen _ => ?_, fun x xs rest hlen => ?_, fun g gs rest hlen => ?_⟩
    · have := serializeJson_length_pos v
      omega
    · omega
    · omega
  | succ f ih =>
    obtain ⟨ihV, ihE, ihM⟩ := ih
    refine ⟨fun v rest hlen hrest => ?_, fun x xs rest hlen => ?_, fun g gs rest hlen => ?_⟩
    · cases v with
      | null =>
        rw [show serializeJson Json.null = ['n', 'u', 'l', 'l'] from by simp [serializeJson]]
        simp only [parseValue]
        simp [skipWs, List.dropWhile, isJsonWs, isDigitChar]
      | bool b =>
        cases b
        · rw [show serializeJson (Json.bool false) = ['f', 'a', 'l', 's', 'e'] from by
            simp [serializeJson]]
          simp only [parseValue]
          simp [skipWs, List.dropWhile, isJsonWs, isDigitChar]
        · rw [show serializeJson (Json.bool true) = ['t', 'r', 'u', 'e'] from by
            simp [serializeJson]]
          simp only [parseValue]
          simp [skipWs, List.dropWhile, isJsonWs, isDigitChar]
      | num n =>
        by_cases hneg : n < 0
        · rw [show serializeJson (Json.num n) = '-' :: natToChars n.natAbs from by
            simp [serializeJson, hneg]]
          simp only [parseValue]
          rw [List.cons_append, skipWs_cons (by decide)]
          simp only [show ('-' = 'n') = False from by simp,
            show ('-' = 't') = False from by simp, show ('-' = 'f') = False from by simp,
            show ('-' = '"') = False from by simp, if_false, if_true, eq_self_iff_true,
            parseDigits_natToChars n.natAbs rest hrest]
          have hn : -(n.natAbs : Int) = n := by omega
          rw [hn]
        · rcases hne : natToChars n.natAbs with _ | ⟨c, t⟩
          · exact absurd hne (natToChars_ne_nil _)
          have hdig : isDigitChar c = true := natToChars_all_digits _ c (by rw [hne]; simp)
          have hc1 : (c = 'n') = False := by
            simp only [eq_iff_iff, iff_false]
            rintro rfl; exact absurd hdig (by decide)
          have hc2 : (c = 't') = False := by
            simp only [eq_iff_iff, iff_false]
            rintro rfl; exact absurd hdig (by decide)
          have hc3 : (c = 'f') = False := by
            simp only [eq_iff_iff, iff_false]
            rintro rfl; exact absurd hdig (by decide)
          have hc4 : (c = '"') = False := by
            simp only [eq_iff_iff, iff_false]
            rintro rfl; exact absurd hdig (by decide)
          have hc5 : (c = '-') = False := by
            simp only [eq_iff_iff, iff_false]
            rintro rfl; exact absurd hdig (by decide)
          rw [show serializeJson (Json.num n) = natToChars n.natAbs from by
            simp [serializeJson, hneg], hne]
          simp only [parseValue]
          rw [List.cons_append, skipWs_cons (isDigitChar_not_ws hdig)]
          simp only [hc1, hc2, hc3, hc4, hc5, hdig, if_false, if_true]
          rw [← List.cons_append, ← hne, parseDigits_natToChars n.natAbs rest hrest]
          have hn : (n.natAbs : Int) = n := by omega
          show some (Json.num (n.natAbs : Int), rest) = some (Json.num n, rest)
          rw [hn]
      | str s =>
        rw [show serializeJson (Json.str s) = '"' :: (escapeList s.data ++ ['"']) from by
          simp [serializeJson]]
        simp only [parseValue]
        rw [List.cons_append, skipWs_cons (by decide)]
        simp only [show ('"' = 'n') = False from by simp, show ('"' = 't') = False from by simp,
          show ('"' = 'f') = False from by simp, eq_self_iff_true, if_false, if_true,
          List.append_assoc, List.singleton_append, parseStrAux_escape]
      | arr elems =>
        cases elems with
        | nil =>
          rw [show serializeJson (Json.arr []) = ['[', ']'] from by simp [serializeJson]]
          simp only [parseValue]
          simp [skipWs, List.dropWhile, isJsonWs, isDigitChar]
        | cons x xs =>
          have hser : serializeJson (Json.arr (x :: xs)) =
              '[' :: (serializeElems x xs ++ [']']) := by simp [serializeJson]
          have hlen2 : (serializeElems x xs).length + 1 ≤ f := by
            rw [hser] at hlen
            simp only [List.length_cons, List.length_append, List.length_singleton] at hlen
            omega
          obtain ⟨c, t, hct, hws, hrb, hrc⟩ := serializeElems_head x xs
          have hE := ihE x xs rest hlen2
          rw [hser]
          simp only [parseValue]
          rw [List.cons_append, skipWs_cons (by decide)]
          simp only [show ('[' = 'n') = False from by simp,
            show ('[' = 't') = False from by simp, show ('[' = 'f') = False from by simp,
            show ('[' = '"') = False from by simp, show ('[' = '-') = False from by simp,
            show isDigitChar '[' = false from by decide, eq_self_iff_true, if_false, if_true,
            Bool.false_eq_true, List.append_assoc, List.singleton_append]
          rw [hct] at hE ⊢
          rw [List.cons_append, skipWs_cons hws]
          rw [List.cons_append] at hE
          split
          · rename_i r heq
            rw [List.cons_eq_cons] at heq
            exact absurd heq.1 hrb
          · rw [hE]
      | obj fields =>
        cases fields with
        | nil =>
          rw [show serializeJson (Json.obj []) = ['{', '}'] from by simp [serializeJson]]
          simp only [parseValue]
          simp [skipWs, List.dropWhile, isJsonWs, isDigitChar]
        | cons g gs =>
          have hser : serializeJson (Json.obj (g :: gs)) =
              '{' :: (serializeMembers g gs ++ ['}']) := by simp [serializeJson]
          have hlen2 : (serializeMembers g gs).length + 1 ≤ f := by
            rw [hser] at hlen
            simp only [List.length_cons, List.length_append, List.length_singleton] at hlen
            omega
          obtain ⟨t, hct⟩ := serializeMembers_head g gs
          have hM := ihM g gs rest hlen2
          rw [hser]
          simp only [parseValue]
          rw [List.cons_append, skipWs_cons (by decide)]
          simp only [show ('{' = 'n') = False from by simp,
            show ('{' = 't') = False from by simp, show ('{' = 'f') = False from by simp,
            show ('{' = '"') = False from by simp, show ('{' = '-') = False from by simp,
            show ('{' = '[') = False from by simp,
            show isDigitChar '{' = false from by decide, eq_self_iff_true, if_false, if_true,
            Bool.false_eq_true, List.append_assoc, List.singleton_append]
          rw [hct] at hM ⊢
          rw [List.cons_append, skipWs_cons (by decide)]
          rw [List.cons_append] at hM
          split
          · rename_i r heq
            rw [List.cons_eq_cons] at heq
            exact absurd heq.1 (by decide)
          · rw [hM]
    · cases xs with
      | nil =>
        have hser : serializeElems x [] = serializeJson x := by simp [serializeElems]
        rw [hser] at hlen ⊢
        simp only [parseElems]
        simp only [ihV x (']' :: rest) (by omega) (headFails_cons (by decide) rest)]
        simp [skipWs, List.dropWhile, isJsonWs, isDigitChar]
      | cons y ys =>
        have hser : serializeElems x (y :: ys) =
            serializeJson x ++ ',' :: serializeElems y ys := by simp [serializeElems]
        rw [hser] at hlen ⊢
        have hlx : (serializeJson x).length ≤ f := by
          simp only [List.length_append, List.length_cons] at hlen
          omega
        have hly : (serializeElems y ys).length + 1 ≤ f := by
          simp only [List.length_append, List.length_cons] at hlen
          omega
        simp only [parseElems]
        rw [List.append_assoc, List.cons_append]
        simp only [ihV x (',' :: (serializeElems y ys ++ ']' :: rest)) hlx
            (headFails_cons (by decide) _),
          skipWs_cons (show isJsonWs ',' = false from by decide),
          ihE y ys rest hly]
    · rcases g with ⟨k, v⟩
      cases gs with
      | nil =>
        have hser : serializeMembers (k, v) [] =
            '"' :: (escapeList k.data ++ '"' :: ':' :: serializeJson v) := by
          simp [serializeMembers]
        rw [hser] at hlen ⊢
        have hlv : (serializeJson v).length ≤ f := by
          simp only [List.length_cons, List.length_append] at hlen
          omega
        simp only [parseMembers]
        rw [List.cons_append, List.append_assoc, List.cons_append, List.cons_append]
        simp only [skipWs_cons (show isJsonWs '"' = false from by decide), parseStrAux_escape,
          skipWs_cons (show isJsonWs ':' = false from by decide),
          ihV v ('}' :: rest) hlv (headFails_cons (by decide) rest),
          skipWs_cons (show isJsonWs '}' = false from by decide)]
      | cons g2 gs2 =>
        have hser : serializeMembers (k, v) (g2 :: gs2) =
            ('"' :: (escapeList k.data ++ '"' :: ':' :: serializeJson v)) ++
              ',' :: serializeMembers g2 gs2 := by
          simp [serializeMembers]
        rw [hser] at hlen ⊢
        have hlv : (serializeJson v).length ≤ f := by
          simp only [List.length_cons, List.length_append] at hlen
          omega
        have hlg : (serializeMembers g2 gs2).length + 1 ≤ f := by
          simp only [List.length_cons, List.length_append] at hlen
          omega
        simp only [parseMembers]
        simp only [List.cons_append, List.append_assoc]
        simp only [skipWs_cons (show isJsonWs '"' = false from by decide), parseStrAux_escape,
          skipWs_cons (show isJsonWs ':' = false from by decide),
          ihV v (',' :: (serializeMembers g2 gs2 ++ '}' :: rest)) hlv
            (headFails_cons (by decide) _),
          skipWs_cons (show isJsonWs ',' = false from by decide),
          ihM g2 gs2 rest hlg]

theorem parseValue_serializeJson (v : Json) (fuel : Nat)
    (hfuel : (serializeJson v).length ≤ fuel) :
    parseValue fuel (serializeJson v) = some (v, []) := by
  have hP := (parse_serialize_mutual fuel).1 v [] hfuel trivial
  rwa [List.append_nil] at hP

/-- JSON round trip on the modelled fragment: `JSON.parse(JSON.stringify(v))`
recovers `v`. -/
theorem jsonParse_stringify (v : Json) : jsonParse (jsonStringify v) = some v := by
  have hlen : (jsonStringify v).length = (serializeJson v).length := rfl
  have hdata : (jsonStringify v).data = serializeJson v := rfl
  rw [jsonParse, hlen, hdata,
    parseValue_serializeJson v ((serializeJson v).length + 1) (by omega)]
  simp [skipWs]

/-- A character acceptable in the modelled `JSON.stringify` fragment: printable,
or one of the control characters with a named escape. -/
def okChar (c : Char) : Bool :=
  32 ≤ c.toNat || c ∈ ['\n', '\t', '\r', '\x08', '\x0c']

mutual

/-- Values on which the model is faithful to the JavaScript host: strings and
keys avoid unnamed control characters (which `JSON.stringify` would escape as
unicode escapes) and object keys are distinct (as in any JavaScript object). -/
def jsonOk : Json → Bool
  | .null => true
  | .bool _ => true
  | .num _ => true
  | .str s => s.data.all okChar
  | .arr xs => jsonOkList xs
  | .obj fs => decide (fs.map Prod.fst).Nodup && jsonOkFields fs
  termination_by v => sizeOf v
  decreasing_by all_goals (simp_wf <;> omega)

/-- Elementwise `jsonOk`. -/
def jsonOkList : List Json → Bool
  | [] => true
  | x :: xs => jsonOk x && jsonOkList xs
  termination_by xs => sizeOf xs
  decreasing_by all_goals (simp_wf <;> omega)

/-- Memberwise `jsonOk` with key checks. -/
def jsonOkFields : List (String × Json) → Bool
  | [] => true
  | (k, v) :: fs => k.data.all okChar && jsonOk v && jsonOkFields fs
  termination_by fs => sizeOf fs
  decreasing_by all_goals (simp_wf <;> omega)

end

/-- JavaScript `String.prototype.trim` on a character list (ASCII whitespace
fragment). -/
def jsTrim (l : List Char) : List Char :=
  ((l.dropWhile isJsWs).reverse.dropWhile isJsWs).reverse

/-- Embedding of `cleanedResponse.replace(/^```json\s*/i, '')` from
`validateLLMResponse`: a leading case-insensitive ```json marker and the
whitespace after it are removed. -/
def stripLeadingJsonFence (l : List Char) : List Char :=
  if (l.take 7).map Char.toLower = "```json".data then (l.drop 7).dropWhile isJsWs else l

/-- Embedding of `cleanedResponse.replace(/^```\s*/i, '')`. -/
def stripLeadingFence (l : List Char) : List Char :=
  if l.take 3 = "```".data then (l.drop 3).dropWhile isJsWs else l

/-- Embedding of `cleanedResponse.replace(/\s*```$/i, '')`.  The regex also
removes the whitespace run just before the trailing fence; because the code
trims the result immediately afterwards, removing only the fence is
equivalent, and the model does that. -/
def stripTrailingFence (l : List Char) : List Char :=
  if l.reverse.take 3 = ['`', '`', '`'] then (l.reverse.drop 3).reverse else l

/-- JavaScript `String.prototype.indexOf` for a single character (`none` for
the code's `-1`). -/
def indexOfChar (c : Char) : List Char → Option Nat
  | [] => none
  | a :: l => if a = c then some 0 else (indexOfChar c l).map (· + 1)

/-- JavaScript `String.prototype.lastIndexOf` for a single character. -/
def lastIndexOfChar (c : Char) (l : List Char) : Option Nat :=
  (indexOfChar c l.reverse).map (fun i => l.length - 1 - i)

/-- The `indexOf('{') / lastIndexOf('}') / substring(jsonStart, jsonEnd + 1)`
step of `validateLLMResponse`: slice to the span from the first `{` to the
last `}` when both exist in that order. -/
def sliceBraces (l : List Char) : List Char :=
  match indexOfChar '{' l, lastIndexOfChar '}' l with
  | some s, some e => if s < e then (l.drop s).take (e - s + 1) else l
  | _, _ => l

/-- The cleaning steps of `validateLLMResponse`, in source order: trim, strip
a leading ```json fence, strip a leading ``` fence, strip a trailing fence,
trim again, brace-slice. -/
def cleanList (l : List Char) : List Char :=
  sliceBraces (jsTrim (stripTrailingFence (stripLeadingFence (stripLeadingJsonFence
    (jsTrim l)))))

/-- String-level entry point of the cleaning steps. -/
def cleanResponse (s : String) : List Char :=
  cleanList s.data

/-- Result of `validateLLMResponse`: either the parsed data or the error
string (for a parse failure the engine-specific exception text appended by the
code is not modelled). -/
inductive LLMValidation where
  | ok (parsedData : Json)
  | invalid (error : String)
  deriving Repr

/-- The post-parse check of `validateLLMResponse`:
`typeof parsed !== 'object' || parsed === null` rejects, everything else is
accepted.  A JavaScript array satisfies `typeof parsed === 'object'`, so
arrays pass the check exactly as objects do; scalars and `null` are
rejected. -/
def classifyParsed : Option Json → LLMValidation
  | none => .invalid "Invalid JSON response"
  | some v =>
    match v with
    | .obj fields => .ok (.obj fields)
    | .arr elems => .ok (.arr elems)
    | _ => .invalid "Response is not a valid JSON object"

/-- Embedding of `LLMService.validateLLMResponse`: clean the reply, run
`JSON.parse`, then apply the object check. -/
def validateLLMResponse (response : String) : LLMValidation :=
  classifyParsed (jsonParse ⟨cleanResponse response⟩)

theorem mem_of_mem_dropWhile {p : Char → Bool} {l : List Char} {c : Char}
    (h : c ∈ l.dropWhile p) : c ∈ l := by
  induction l with
  | nil => simpa using h
  | cons a l ih =>
    rw [List.dropWhile_cons] at h
    by_cases ha : p a
    · simp only [ha, if_true] at h
      exact List.mem_cons_of_mem a (ih h)
    · simp only [ha, if_false] at h
      exact h

theorem dropWhile_append_headFails {p : Char → Bool} {B : List Char}
    (hB : headFails p B) (A : List Char) :
    (A ++ B).dropWhile p = A.dropWhile p ++ B := by
  induction A with
  | nil =>
    cases B with
    | nil => simp
    | cons b B2 =>
      have hb : p b = false := hB
      simp [List.dropWhile_cons, hb]
  | cons a A ih =>
    by_cases ha : p a
    · simp [List.dropWhile_cons, ha, ih]
    · simp [List.dropWhile_cons, ha]

theorem jsTrim_sandwich (pre mid post : List Char)
    (hh : ∃ m1, mid = '{' :: m1) (hl : ∃ m2, mid.reverse = '}' :: m2) :
    jsTrim (pre ++ mid ++ post) =
      pre.dropWhile isJsWs ++ mid ++ (post.reverse.dropWhile isJsWs).reverse := by
  obtain ⟨m1, hm1⟩ := hh
  obtain ⟨m2, hm2⟩ := hl
  have step1 : (pre ++ mid ++ post).dropWhile isJsWs =
      pre.dropWhile isJsWs ++ (mid ++ post) := by
    rw [List.append_assoc]
    exact dropWhile_append_headFails (by rw [hm1]; exact headFails_cons (by decide) _) pre
  have step2 : ((pre.dropWhile isJsWs ++ (mid ++ post)).reverse).dropWhile isJsWs =
      post.reverse.dropWhile isJsWs ++ (mid.reverse ++ (pre.dropWhile isJsWs).reverse) := by
    rw [List.reverse_append, List.reverse_append]
    rw [List.append_assoc]
    exact dropWhile_append_headFails (by rw [hm2]; exact headFails_cons (by decide) _) _
  rw [jsTrim, step1, step2]
  simp [List.reverse_append, List.append_assoc]

theorem stripLeadingJsonFence_sandwich (pre mid post : List Char)
    (hpre : '{' ∉ pre) (hh : ∃ m1, mid = '{' :: m1) :
    ∃ pre2, stripLeadingJsonFence (pre ++ mid ++ post) = pre2 ++ mid ++ post ∧ '{' ∉ pre2 := by
  obtain ⟨m1, hm1⟩ := hh
  by_cases hcond : ((pre ++ mid ++ post).take 7).map Char.toLower = "```json".data
  · have h7 : 7 ≤ pre.length := by
      by_contra hlt
      push_neg at hlt
      have hmem : '{' ∈ (pre ++ mid ++ post).take 7 := by
        rw [List.append_assoc, List.take_append_eq_append_take,
          List.take_of_length_le (by omega)]
        refine List.mem_append_right _ ?_
        rw [hm1]
        rcases hk : 7 - pre.length with _ | k
        · omega
        · simp [List.take_cons]
      have hmem2 : '{' ∈ "```json".data := by
        rw [← hcond]
        have := List.mem_map_of_mem Char.toLower hmem
        simpa using this
      simp at hmem2
    refine ⟨(pre.drop 7).dropWhile isJsWs, ?_, ?_⟩
    · rw [stripLeadingJsonFence, if_pos hcond]
      rw [List.append_assoc, List.drop_append_eq_append_drop,
        show 7 - pre.length = 0 from by omega, List.drop_zero]
      rw [dropWhile_append_headFails (by rw [hm1]; exact headFails_cons (by decide) _) _]
      rw [List.append_assoc]
    · intro hc
      exact hpre (List.drop_subset 7 pre (mem_of_mem_dropWhile hc))
  · exact ⟨pre, by rw [stripLeadingJsonFence, if_neg hcond], hpre⟩

theorem stripLeadingFence_sandwich (pre mid post : List Char)
    (hpre : '{' ∉ pre) (hh : ∃ m1, mid = '{' :: m1) :
    ∃ pre2, stripLeadingFence (pre ++ mid ++ post) = pre2 ++ mid ++ post ∧ '{' ∉ pre2 := by
  obtain ⟨m1, hm1⟩ := hh
  by_cases hcond : (pre ++ mid ++ post).take 3 = "```".data
  · have h3 : 3 ≤ pre.length := by
      by_contra hlt
      push_neg at hlt
      have hmem : '{' ∈ (pre ++ mid ++ post).take 3 := by
        rw [List.append_assoc, List.take_append_eq_append_take,
          List.take_of_length_le (by omega)]
        refine List.mem_append_right _ ?_
        rw [hm1]
        rcases hk : 3 - pre.length with _ | k
        · omega
        · simp [List.take_cons]
      rw [hcond] at hmem
      simp at hmem
    refine ⟨(pre.drop 3).dropWhile isJsWs, ?_, ?_⟩
    · rw [stripLeadingFence, if_pos hcond]
      rw [List.append_assoc, List.drop_append_eq_append_drop,
        show 3 - pre.length = 0 from by omega, List.drop_zero]
      rw [dropWhile_append_headFails (by rw [hm1]; exact headFails_cons (by decide) _) _]
      rw [List.append_assoc]
    · intro hc
      exact hpre (List.drop_subset 3 pre (mem_of_mem_dropWhile hc))
  · exact ⟨pre, by rw [stripLeadingFence, if_neg hcond], hpre⟩

theorem stripTrailingFence_sandwich (pre mid post : List Char)
    (hpost : '}' ∉ post) (hl : ∃ m2, mid.reverse = '}' :: m2) :
    ∃ post2, stripTrailingFence (pre ++ mid ++ post) = pre ++ mid ++ post2 ∧ '}' ∉ post2 := by
  obtain ⟨m2, hm2⟩ := hl
  have hrev : (pre ++ mid ++ post).reverse = post.reverse ++ ('}' :: (m2 ++ pre.reverse)) := by
    rw [List.reverse_append, List.reverse_append, hm2]
    simp [List.append_assoc]
  by_cases hcond : (pre ++ mid ++ post).reverse.take 3 = ['`', '`', '`']
  · have h3 : 3 ≤ post.length := by
      by_contra hlt
      push_neg at hlt
      have hmem : '}' ∈ (pre ++ mid ++ post).reverse.take 3 := by
        rw [hrev, List.take_append_eq_append_take,
          List.take_of_length_le (by simp; omega)]
        refine List.mem_append_right _ ?_
        rcases hk : 3 - post.reverse.length with _ | k
        · simp at hk
          omega
        · simp [List.take_cons]
      rw [hcond] at hmem
      simp at hmem
    have hmid : mid = m2.reverse ++ ['}'] := by
      rw [← List.reverse_reverse mid, hm2]
      simp
    refine ⟨(post.reverse.drop 3).reverse, ?_, ?_⟩
    · rw [stripTrailingFence, if_pos hcond, hrev]
      rw [List.drop_append_eq_append_drop,
        show 3 - post.reverse.length = 0 from by simp; omega, List.drop_zero]
      rw [List.reverse_append, hmid]
      simp [List.append_assoc]
    · intro hc
      simp only [List.mem_reverse] at hc
      exact hpost (by
        have := List.drop_subset 3 post.reverse hc
        simpa using this)
  · exact ⟨post, by rw [stripTrailingFence, if_neg hcond], hpost⟩

theorem indexOfChar_append_of_not_mem {c : Char} {A : List Char} (h : c ∉ A) (B : List Char) :
    indexOfChar c (A ++ B) = (indexOfChar c B).map (· + A.length) := by
  induction A with
  | nil =>
    cases hB : indexOfChar c B <;> simp [hB]
  | cons a A ih =>
    have ha : ¬a = c := fun hEq => h (by rw [hEq]; exact List.mem_cons_self c A)
    have ih2 := ih (fun hc => h (List.mem_cons_of_mem a hc))
    rw [List.cons_append, indexOfChar, if_neg ha, ih2]
    cases indexOfChar c B <;> simp <;> omega

theorem sliceBraces_sandwich (pre mid post : List Char)
    (hpre : '{' ∉ pre) (hpost : '}' ∉ post)
    (hh : ∃ m1, mid = '{' :: m1) (hl : ∃ m2, mid.reverse = '}' :: m2)
    (hlen : 2 ≤ mid.length) :
    sliceBraces (pre ++ mid ++ post) = mid := by
  obtain ⟨m1, hm1⟩ := hh
  obtain ⟨m2, hm2⟩ := hl
  have hidx : indexOfChar '{' (pre ++ mid ++ post) = some pre.length := by
    rw [List.append_assoc, indexOfChar_append_of_not_mem hpre, hm1]
    simp [indexOfChar]
  have hrev : (pre ++ mid ++ post).reverse = post.reverse ++ ('}' :: (m2 ++ pre.reverse)) := by
    rw [List.reverse_append, List.reverse_append, hm2]
    simp [List.append_assoc]
  have hpostrev : '}' ∉ post.reverse := by simpa using hpost
  have hmlen : mid.length = m2.length + 1 := by
    have h1 : mid.reverse.length = ('}' :: m2).length := by rw [hm2]
    simpa using h1
  have hlast : lastIndexOfChar '}' (pre ++ mid ++ post) =
      some (pre.length + mid.length - 1) := by
    rw [lastIndexOfChar, hrev, indexOfChar_append_of_not_mem hpostrev]
    rw [show indexOfChar '}' ('}' :: (m2 ++ pre.reverse)) = some 0 from by simp [indexOfChar]]
    simp only [Option.map_some', Nat.zero_add]
    congr 1
    simp only [List.length_reverse, List.length_append]
    omega
  unfold sliceBraces
  simp only [hidx, hlast]
  rw [if_pos (show pre.length < pre.length + mid.length - 1 from by omega)]
  rw [show pre.length + mid.length - 1 - pre.length + 1 = mid.length from by omega]
  rw [show pre ++ mid ++ post = pre ++ (mid ++ post) from by simp, List.drop_left]
  rw [List.take_left]

theorem serializeJson_obj_head (fields : List (String × Json)) :
    ∃ m1, serializeJson (Json.obj fields) = '{' :: m1 := by
  cases fields with
  | nil => exact ⟨['}'], by simp [serializeJson]⟩
  | cons f fs => exact ⟨serializeMembers f fs ++ ['}'], by simp [serializeJson]⟩

theorem serializeJson_obj_last (fields : List (String × Json)) :
    ∃ m2, (serializeJson (Json.obj fields)).reverse = '}' :: m2 := by
  cases fields with
  | nil => exact ⟨['{'], by simp [serializeJson]⟩
  | cons f fs =>
    refine ⟨(serializeMembers f fs).reverse ++ ['{'], ?_⟩
    rw [show serializeJson (Json.obj (f :: fs)) = '{' :: (serializeMembers f fs ++ ['}']) from by
      simp [serializeJson]]
    simp

theorem serializeJson_obj_two_le (fields : List (String × Json)) :
    2 ≤ (serializeJson (Json.obj fields)).length := by
  cases fields with
  | nil => simp [serializeJson]
  | cons f fs =>
    rw [show serializeJson (Json.obj (f :: fs)) = '{' :: (serializeMembers f fs ++ ['}']) from by
      simp [serializeJson]]
    simp

theorem cleanList_recovers (fields : List (String × Json)) (pre post : List Char)
    (hpre : '{' ∉ pre) (hpost : '}' ∉ post) :
    cleanList (pre ++ serializeJson (Json.obj fields) ++ post) =
      serializeJson (Json.obj fields) := by
  have hh := serializeJson_obj_head fields
  have hl := serializeJson_obj_last fields
  have hlen := serializeJson_obj_two_le fields
  have hpreD : '{' ∉ pre.dropWhile isJsWs := fun hc => hpre (mem_of_mem_dropWhile hc)
  have hpostD : '}' ∉ (post.reverse.dropWhile isJsWs).reverse := by
    intro hc
    rw [List.mem_reverse] at hc
    exact hpost (by simpa using mem_of_mem_dropWhile hc)
  rw [cleanList, jsTrim_sandwich pre _ post hh hl]
  obtain ⟨pre2, heq2, hpre2⟩ := stripLeadingJsonFence_sandwich (pre.dropWhile isJsWs) _
    ((post.reverse.dropWhile isJsWs).reverse) hpreD hh
  rw [heq2]
  obtain ⟨pre3, heq3, hpre3⟩ := stripLeadingFence_sandwich pre2 _
    ((post.reverse.dropWhile isJsWs).reverse) hpre2 hh
  rw [heq3]
  obtain ⟨post2, heq4, hpost2⟩ := stripTrailingFence_sandwich pre3 _
    ((post.reverse.dropWhile isJsWs).reverse) hpostD hl
  rw [heq4]
  rw [jsTrim_sandwich pre3 _ post2 hh hl]
  have hpre4 : '{' ∉ pre3.dropWhile isJsWs := fun hc => hpre3 (mem_of_mem_dropWhile hc)
  have hpost3 : '}' ∉ (post2.reverse.dropWhile isJsWs).reverse := by
    intro hc
    rw [List.mem_reverse] at hc
    exact hpost2 (by simpa using mem_of_mem_dropWhile hc)
  exact sliceBraces_sandwich _ _ _ hpre4 hpost3 hh hl hlen

/-- C3 (amended): for any JSON object of the modelled fragment serialized into
the reply — optionally wrapped in a code fence and surrounded by prose — the
recovery pipeline of `validateLLMResponse` (trim, fence strip, brace slice,
parse) returns exactly that object, provided the leading prose contains no
`\x7b` and the trailing prose contains no `\x7d`.  The original premise, that
the object's text is the only balanced brace span of the reply, is not enough:
see the counterexample. -/
theorem validateLLMResponse_recovers_obj (fields : List (String × Json)) (pre post : String)
    (hpre : '{' ∉ pre.data) (hpost : '}' ∉ post.data) :
    validateLLMResponse (pre ++ jsonStringify (Json.obj fields) ++ post) =
      .ok (Json.obj fields) := by
  have hdata : (pre ++ jsonStringify (Json.obj fields) ++ post).data =
      pre.data ++ serializeJson (Json.obj fields) ++ post.data := by
    rw [String.data_append, String.data_append]
    rfl
  have hclean : cleanResponse (pre ++ jsonStringify (Json.obj fields) ++ post) =
      serializeJson (Json.obj fields) := by
    rw [cleanResponse, hdata]
    exact cleanList_recovers fields pre.data post.data hpre hpost
  unfold validateLLMResponse
  rw [hclean]
  rw [show (⟨serializeJson (Json.obj fields)⟩ : String) = jsonStringify (Json.obj fields)
    from rfl]
  rw [jsonParse_stringify]
  rfl


/-! ## Document type registry (`documentTypeService.ts`) -/

/-- The fields of an uploaded file that `validateFileForDocumentType` reads
(`Express.Multer.File`). -/
structure MFile where
  originalname : String
  size : Nat
  deriving Repr, DecidableEq

/-- A registry entry (`DocumentType` in `backend/src/types`). -/
structure DocumentType where
  id : String
  name : String
  description : String
  supportedFormats : List String
  maxFileSize : Nat
  promptTemplate : String
  maxFiles : Option Nat := none
  minFiles : Option Nat := none
  deriving Repr, DecidableEq

/-- `getDefaultDocumentTypes` from `documentTypeService.ts`. -/
def getDefaultDocumentTypes : List DocumentType :=
  [{ id := "kaufvertrag", name := "Kaufvertraggg",
     description := "Immobilien-Kaufvertrag Daten extrahieren",
     supportedFormats := ["pdf", "docx"], maxFileSize := 15 * 1024 * 1024,
     promptTemplate := "kaufvertrag_prompt.txt" },
   { id := "angebotsvergleich", name := "Angebotsvergleich",
     description := "Darlehensangebote vergleichen (2-3 Angebote)",
     supportedFormats := ["pdf"], maxFileSize := 15 * 1024 * 1024,
     promptTemplate := "angebotsvergleich_prompt.txt",
     maxFiles := some 3, minFiles := some 2 },
   { id := "invoice", name := "Rechnung",
     description := "Rechnungsdaten extrahieren",
     supportedFormats := ["pdf", "png", "jpg", "jpeg"], maxFileSize := 10 * 1024 * 1024,
     promptTemplate := "invoice_prompt.txt" },
   { id := "receipt", name := "Kassenbon",
     description := "Kassenbondaten extrahieren",
     supportedFormats := ["pdf", "png", "jpg", "jpeg"], maxFileSize := 5 * 1024 * 1024,
     promptTemplate := "receipt_prompt.txt" },
   { id := "business_card", name := "Visitenkarte",
     description := "Kontaktdaten aus Visitenkarten extrahieren",
     supportedFormats := ["png", "jpg", "jpeg"], maxFileSize := 2 * 1024 * 1024,
     promptTemplate := "business_card_prompt.txt" },
   { id := "resume", name := "Lebenslauf",
     description := "Persönliche und berufliche Informationen aus Lebensläufen extrahieren",
     supportedFormats := ["pdf", "docx"], maxFileSize := 5 * 1024 * 1024,
     promptTemplate := "resume_prompt.txt" },
   { id := "haushaltsrechnung", name := "Haushaltsrechnung",
     description := "Bankkontoauszüge analysieren und Transaktionen kategorisieren",
     supportedFormats := ["pdf"], maxFileSize := 2 * 1024 * 1024,
     promptTemplate := "haushaltsrechnung_prompt.txt" },
   { id := "angebotserfassung", name := "Angebotserfassung",
     description := "Darlehensangebote erfassen und in Datenbank speichern (1-3 Angebote)",
     supportedFormats := ["pdf"], maxFileSize := 15 * 1024 * 1024,
     promptTemplate := "angebotsvergleich_prompt.txt",
     maxFiles := some 3, minFiles := some 1 },
   { id := "document_verification", name := "Dokumenten-Verifizierung",
     description := "Mehrere Dokumente verschiedener Typen verifizieren (Pass, ID-Karte, Kaufvertrag)",
     supportedFormats := ["pdf", "png", "jpg", "jpeg"], maxFileSize := 15 * 1024 * 1024,
     promptTemplate := "",
     maxFiles := some 10, minFiles := some 1 }]

/-- `getDocumentTypeById`: first entry with the given id. -/
def getDocumentTypeById (documentTypes : List DocumentType) (id : String) :
    Option DocumentType :=
  documentTypes.find? (fun t => t.id == id)

/-- JavaScript `String.prototype.split` with a one-character separator. -/
def splitOnChar (sep : Char) : List Char → List (List Char)
  | [] => [[]]
  | c :: rest =>
    let r := splitOnChar sep rest
    if c = sep then [] :: r
    else
      match r with
      | h :: t => (c :: h) :: t
      | [] => [[c]]

/-- `file.originalname.split('.').pop()?.toLowerCase()`.  For a name without a
dot, JavaScript `split` yields the whole name as the single element, so the
"extension" is the whole name.  `toLowerCase` agrees with `Char.toLower` on
ASCII. -/
def fileExtension (name : String) : String :=
  ⟨((((splitOnChar '.' name.data).getLast?).getD []).map Char.toLower)⟩

/-- JavaScript `Math.round` on the rationals: round half toward positive
infinity. -/
def jsRound (q : ℚ) : Int :=
  ⌊q + 1 / 2⌋

/-- Return shape of `validateFileForDocumentType`. -/
structure FileValidation where
  isValid : Bool
  error : Option String
  deriving Repr, DecidableEq

/-- The `FileTooLarge`-style message built by `validateFileForDocumentType`. -/
def fileTooLargeMsg (t : DocumentType) : String :=
  "File size exceeds maximum limit of " ++
    toString (jsRound ((t.maxFileSize : ℚ) / 1024 / 1024)) ++ "MB"

/-- The `UnsupportedFormat`-style message built by `validateFileForDocumentType`. -/
def unsupportedFormatMsg (t : DocumentType) : String :=
  "Unsupported file format. Supported formats: " ++ String.intercalate ", " t.supportedFormats

/-- Embedding of `validateFileForDocumentType`: document type existence, then
the size limit, then the extension check, in that order. -/
def validateFileForDocumentType (documentTypes : List DocumentType)
    (file : MFile) (documentTypeId : String) : FileValidation :=
  match getDocumentTypeById documentTypes documentTypeId with
  | none => ⟨false, some "Unsupported document type"⟩
  | some docType =>
    if file.size > docType.maxFileSize then
      ⟨false, some (fileTooLargeMsg docType)⟩
    else if !(docType.supportedFormats.contains (fileExtension file.originalname)) then
      ⟨false, some (unsupportedFormatMsg docType)⟩
    else ⟨true, none⟩

/-- Built-in default prompt template for `kaufvertrag` (from `getDefaultPromptTemplate`). -/
def defaultPrompt_kaufvertrag : String :=
  "Sie sind ein Dokumentenanalyse-Assistent, der auf die Extraktion strukturierter Daten aus Immobilien-Kaufverträgen spezialisiert ist.\n\nPFLICHTFELDER:\n- buyer: Name des Käufers (Vollständiger Name oder Firma)\n- seller: Name des Verkäufers (Vollständiger Name oder Firma)\n- object: Beschreibung der Immobilie (Adresse, Art der Immobilie)\n- price: Kaufpreis (nur numerischer Wert ohne Währung)\n\nOPTIONALE FELDER:\n- propertyAddress: Vollständige Adresse der Immobilie\n- notary: Name des Notars\n- contractDate: Datum des Vertragsabschlusses (Format: YYYY-MM-DD)\n- transferDate: Übergabedatum (Format: YYYY-MM-DD)\n- conditions: Besondere Bedingungen oder Klauseln\n\nGeben Sie die Daten als gültiges JSON-Objekt mit diesen exakten Feldnamen zurück.\nWenn ein Feld nicht gefunden wird, verwenden Sie null für Pflichtfelder und lassen Sie optionale Felder weg."

/-- Built-in default prompt template for `invoice` (from `getDefaultPromptTemplate`). -/
def defaultPrompt_invoice : String :=
  "Sie sind ein Dokumentenanalyse-Assistent, der auf die Extraktion strukturierter Daten aus Rechnungen spezialisiert ist.\n\nPFLICHTFELDER:\n- vendorName: Name des Anbieters/Lieferanten/Unternehmens, das die Rechnung ausgestellt hat\n- invoiceNumber: Rechnungsnummer oder Referenznummer\n- invoiceDate: Datum der Rechnungsstellung (Format: YYYY-MM-DD)\n- totalAmount: Gesamtbetrag (nur numerischer Wert)\n\nOPTIONALE FELDER:\n- lineItems: Array einzelner Rechnungspositionen mit Beschreibung, Menge, Einzelpreis, Gesamtpreis\n- taxAmount: Gesamter Steuerbetrag (Zahl)\n- dueDate: Fälligkeitsdatum\n- paymentTerms: Zahlungsbedingungen\n\nGeben Sie die Daten als gültiges JSON-Objekt mit diesen exakten Feldnamen zurück."

/-- Built-in default prompt template for `receipt` (from `getDefaultPromptTemplate`). -/
def defaultPrompt_receipt : String :=
  "Sie sind ein Dokumentenanalyse-Assistent, der auf die Extraktion strukturierter Daten aus Kassenbons spezialisiert ist.\n\nPFLICHTFELDER:\n- merchantName: Name des Händlers oder Geschäfts\n- transactionDate: Datum der Transaktion (Format: YYYY-MM-DD)\n- totalAmount: Gesamtbetrag (nur numerischer Wert)\n\nOPTIONALE FELDER:\n- items: Array gekaufter Artikel mit Name, Preis, Menge\n- paymentMethod: Zahlungsmethode (Bargeld, Karte, etc.)\n- taxAmount: Gezahlter Steuerbetrag (Zahl)\n\nGeben Sie die Daten als gültiges JSON-Objekt mit diesen exakten Feldnamen zurück."

/-- Built-in default prompt template for `business_card` (from `getDefaultPromptTemplate`). -/
def defaultPrompt_business_card : String :=
  "Sie sind ein Dokumentenanalyse-Assistent, der auf die Extraktion von Kontaktinformationen aus Visitenkarten spezialisiert ist.\n\nPFLICHTFELDER:\n- name: Vollständiger Name der Person\n\nOPTIONALE FELDER:\n- title: Berufsbezeichnung oder Position\n- company: Firmen- oder Organisationsname\n- phoneNumbers: Array von Telefonnummern\n- emailAddresses: Array von E-Mail-Adressen\n- physicalAddress: Objekt mit Straße, Stadt, Bundesland, PLZ, Land\n- website: Website-URL\n\nGeben Sie die Daten als gültiges JSON-Objekt mit diesen exakten Feldnamen zurück."

/-- Built-in default prompt template for `resume` (from `getDefaultPromptTemplate`). -/
def defaultPrompt_resume : String :=
  "Sie sind ein Dokumentenanalyse-Assistent, der auf die Extraktion von Informationen aus Lebensläufen spezialisiert ist.\n\nPFLICHTFELDER:\n- personalInfo: Objekt mit Name, E-Mail, Telefon (mindestens)\n\nOPTIONALE FELDER:\n- workExperience: Array von Berufserfahrungen mit Firma, Position, Daten\n- education: Array der Bildungslaufbahn\n- skills: Array von Fähigkeiten\n- certifications: Array von Zertifizierungen\n\nGeben Sie die Daten als gültiges JSON-Objekt mit diesen exakten Feldnamen zurück."

/-- Built-in default prompt template for `haushaltsrechnung` (from `getDefaultPromptTemplate`). -/
def defaultPrompt_haushaltsrechnung : String :=
  "Sie sind ein Experte für die Analyse von Bankkontoauszügen und Haushaltsrechnungen. Ihre Aufgabe ist es, alle Transaktionen zu extrahieren, zu kategorisieren und zusammenzufassen.\n\nWICHTIGE ANWEISUNGEN:\n1. Analysieren Sie ALLE Transaktionen im Dokument (auch über mehrere Seiten)\n2. Summieren Sie Einnahmen und Ausgaben getrennt\n3. Kategorisieren Sie Ausgaben in die 4 Hauptkategorien + Unallocated\n4. Geben Sie für jede Kategorie eine Confidence-Bewertung (0-100) an\n5. Stellen Sie sicher, dass die Summe der Unterkategorien der Gesamtsumme der Ausgaben entspricht\n\nPFLICHTFELDER:\n- period: Zeitraum des Kontoauszugs (z.B. \"Januar 2024\", \"01.01.2024 - 31.01.2024\")\n- einnahmen: Objekt mit total (Summe aller Einnahmen) und confidence (0-100)\n- ausgaben: Objekt mit total (Summe aller Ausgaben) und confidence (0-100)\n  - categories: Objekt mit 5 Kategorien (jede mit amount und confidence):\n    - wohnkosten: Miete, Nebenkosten, Strom, Gas, Wasser, Internet, etc.\n    - kreditraten: Kreditraten, Leasingraten, Darlehensraten\n    - versicherungen: Alle Versicherungsbeiträge (Haftpflicht, Hausrat, etc.)\n    - lebenshaltungskosten: Einkaufen, Restaurants, Freizeit, Kleidung, etc.\n    - unallocated: Nicht eindeutig zuordenbare Ausgaben\n- validation: Objekt mit:\n  - totalSumCorrect: true/false (ob die Gesamtsumme korrekt ist)\n  - subCategoriesSumCorrect: true/false (ob Unterkategorien-Summe = Ausgaben-Summe)\n  - overallConfidence: Durchschnittliche Confidence aller Kategorien (0-100)\n\nZAHLENFORMAT:\n- Alle Beträge als positive Zahlen (auch Ausgaben)\n- Verwenden Sie das englische Zahlenformat für JSON (1234.56, NICHT 1.234,56)\n- Runden Sie auf 2 Dezimalstellen\n- Beispiel: 1234.56 statt 1.234,56\n\nBEISPIEL JSON-STRUKTUR:\n\x7b\n  \"period\": \"Januar 2024\",\n  \"einnahmen\": \x7b\n    \"total\": 3355.57,\n    \"confidence\": 95\n  \x7d,\n  \"ausgaben\": \x7b\n    \"total\": 1841.43,\n    \"confidence\": 95,\n    \"categories\": \x7b\n      \"wohnkosten\": \x7b\n        \"amount\": 423.00,\n        \"confidence\": 90\n      \x7d,\n      \"kreditraten\": \x7b\n        \"amount\": 0.00,\n        \"confidence\": 100\n      \x7d,\n      \"versicherungen\": \x7b\n        \"amount\": 200.76,\n        \"confidence\": 90\n      \x7d,\n      \"lebenshaltungskosten\": \x7b\n        \"amount\": 1217.67,\n        \"confidence\": 85\n      \x7d,\n      \"unallocated\": \x7b\n        \"amount\": 0.00,\n        \"confidence\": 100\n      \x7d\n    \x7d\n  \x7d,\n  \"validation\": \x7b\n    \"totalSumCorrect\": true,\n    \"subCategoriesSumCorrect\": true,\n    \"overallConfidence\": 90\n  \x7d\n\x7d\n\nGeben Sie die Daten als gültiges JSON-Objekt mit diesen exakten Feldnamen zurück."

/-- Embedding of `getDefaultPromptTemplate`: the built-in template map with
the kaufvertrag template as the fallback (`templates[documentTypeId] ||
templates.kaufvertrag`). -/
def getDefaultPromptTemplate (documentTypeId : String) : String :=
  if documentTypeId == "kaufvertrag" then defaultPrompt_kaufvertrag
  else if documentTypeId == "invoice" then defaultPrompt_invoice
  else if documentTypeId == "receipt" then defaultPrompt_receipt
  else if documentTypeId == "business_card" then defaultPrompt_business_card
  else if documentTypeId == "resume" then defaultPrompt_resume
  else if documentTypeId == "haushaltsrechnung" then defaultPrompt_haushaltsrechnung
  else defaultPrompt_kaufvertrag

/-- Embedding of `getPromptTemplate`.  The prompts directory is passed as a
map from template file name to contents (`none` models a missing file, and a
read error is treated like a missing file by the code's catch block). -/
def getPromptTemplate (promptsDir : String → Option String)
    (documentTypes : List DocumentType) (documentTypeId : String) : Option String :=
  match getDocumentTypeById documentTypes documentTypeId with
  | none => none
  | some docType =>
    match promptsDir docType.promptTemplate with
    | some content => some content
    | none => some (getDefaultPromptTemplate documentTypeId)


/-! ## Confidence scorer (`llmService.calculateConfidence`) -/

/-- Property lookup on a JavaScript value (`value[key]`): association lookup
with the last binding winning (JavaScript object assignment semantics);
`none` models `undefined`.  Non-objects have none of the named properties the
code reads. -/
def jget : Json → String → Option Json
  | .obj fields, key => ((fields.reverse).find? (fun p => p.1 == key)).map (fun p => p.2)
  | _, _ => none

/-- The loose test `extractedData[field] != null`: present and neither `null`
nor `undefined`. -/
def fieldPresent (extractedData : Json) (key : String) : Bool :=
  match jget extractedData key with
  | none => false
  | some .null => false
  | some _ => true

/-- The required-field table hard-coded in `calculateConfidence`; `none` for a
document type outside the five scored branches. -/
def requiredFields (documentType : String) : Option (List String) :=
  if documentType == "kaufvertrag" then some ["buyer", "seller", "object", "price"]
  else if documentType == "invoice" then
    some ["vendorName", "invoiceNumber", "invoiceDate", "totalAmount"]
  else if documentType == "receipt" then some ["merchantName", "transactionDate", "totalAmount"]
  else if documentType == "business_card" then some ["name"]
  else if documentType == "resume" then some ["personalInfo"]
  else none

/-- The fixed exclusion list of the bonus computation in `calculateConfidence`
(the union of every scored type's required fields), used for every document
type. -/
def globalRequiredUnion : List String :=
  ["buyer", "seller", "object", "price", "vendorName", "invoiceNumber", "invoiceDate",
   "totalAmount", "merchantName", "transactionDate", "name", "personalInfo"]

/-- `Object.keys(extractedData)` for a parsed record. -/
def objectKeys : Json → List String
  | .obj fields => fields.map (fun p => p.1)
  | _ => []

/-- Embedding of `calculateConfidence`.  The result is `none` exactly when the
JavaScript code computes `0/0` (a document type outside the five scored
branches): `score` and `totalFields` are both zero there, the division yields
`NaN`, and `Math.min`/`Math.max` propagate it, so the function returns `NaN`
— a number outside `[0, 1]`. -/
def calculateConfidence (extractedData : Json) (documentType : String) : Option ℚ :=
  let pair : ℚ × Nat :=
    match requiredFields documentType with
    | some required =>
      (((required.filter (fun f => fieldPresent extractedData f)).length : ℚ), required.length)
    | none => (0, 0)
  let optionalFields :=
    (objectKeys extractedData).filter (fun key => !(globalRequiredUnion.contains key))
  let score := pair.1 + min ((optionalFields.length : ℚ) * (1 / 2)) ((pair.2 : ℚ) * (1 / 2))
  if pair.2 = 0 then none
  else some (min (max (score / (pair.2 : ℚ)) 0) 1)

/-- Modelled from the spec (claim C5): the bonus counts the fields of the
record outside the document type's OWN required set, not the global union. -/
def specConfidenceFormula (required : List String) (extractedData : Json) : ℚ :=
  let present := ((required.filter (fun f => fieldPresent extractedData f)).length : ℚ)
  let extra := (((objectKeys extractedData).filter
    (fun key => !(required.contains key))).length : ℚ)
  min (max ((present + min (extra * (1 / 2)) ((required.length : ℚ) * (1 / 2))) /
    (required.length : ℚ)) 0) 1

/-! ## Verification service (`verificationService.ts`) and the verify route -/

/-- One checklist item of a `VerificationChecklist`. -/
structure ChecklistItem where
  id : String
  label : String
  description : String := ""
  deriving Repr, DecidableEq

/-- A named checklist (only `items` is read by the service). -/
structure VerificationChecklist where
  items : List ChecklistItem
  deriving Repr, DecidableEq

/-- `VerificationItemResult`. -/
structure VerificationItemResult where
  passed : Bool
  reason : String
  deriving Repr, DecidableEq

/-- One entry of the `checklist` array of a `VerificationResult`. -/
structure ChecklistResultEntry where
  id : String
  label : String
  passed : Bool
  reason : String
  deriving Repr, DecidableEq

/-- `VerificationResult` (confidence is optional: the route's synthesized
failure results leave it unset). -/
structure VerificationResult where
  documentType : String
  fileName : String
  verified : Bool
  checklist : List ChecklistResultEntry
  passedCount : Nat
  totalCount : Nat
  processingTime : Nat
  confidence : Option ℚ
  deriving Repr, DecidableEq

/-- JavaScript truthiness of a property value (`none` models `undefined`). -/
def jsTruthy : Option Json → Bool
  | none => false
  | some .null => false
  | some (.bool b) => b
  | some (.num n) => n != 0
  | some (.str s) => s != ""
  | some (.arr _) => true
  | some (.obj _) => true

/-- `typeof v === 'object' && v` (truthy): a non-null object or an array. -/
def isObjectLike : Json → Bool
  | .obj _ => true
  | .arr _ => true
  | _ => false

mutual

/-- JavaScript `String(v)` on the modelled fragment (arrays join their
elements with commas, `null` elements becoming empty). -/
def jsToString : Json → String
  | .null => "null"
  | .bool true => "true"
  | .bool false => "false"
  | .num n => (if n < 0 then "-" else "") ++ (⟨natToChars n.natAbs⟩ : String)
  | .str s => s
  | .arr xs => jsToStringList xs
  | .obj _ => "[object Object]"
  termination_by v => 2 * sizeOf v
  decreasing_by all_goals (simp_wf <;> omega)

/-- Comma join for `String` of an array. -/
def jsToStringList : List Json → String
  | [] => ""
  | [x] => jsToStringElem x
  | x :: y :: xs => jsToStringElem x ++ "," ++ jsToStringList (y :: xs)
  termination_by xs => 2 * sizeOf xs
  decreasing_by all_goals (simp_wf <;> omega)

/-- Array elements stringify as themselves except `null`, which joins as the
empty string. -/
def jsToStringElem : Json → String
  | .null => ""
  | v => jsToString v
  termination_by v => 2 * sizeOf v + 1
  decreasing_by all_goals (simp_wf <;> omega)

end

/-- Lookup in the dictionary built by `parseVerificationResponse`
(a JavaScript object keyed by item id; later assignments win). -/
def assocGet (l : List (String × VerificationItemResult)) (key : String) :
    Option VerificationItemResult :=
  ((l.reverse).find? (fun p => p.1 == key)).map (fun p => p.2)

/-- The entry `parseVerificationResponse` stores for one checklist item. -/
def parseVerificationEntry (verification : Json) (item : ChecklistItem) :
    VerificationItemResult :=
  match jget verification item.id with
  | some d =>
    if isObjectLike d then
      { passed := jsTruthy (jget d "passed")
        reason :=
          if jsTruthy (jget d "reason") then jsToString ((jget d "reason").getD Json.null)
          else "No reason provided" }
    else { passed := false, reason := "Item not found in verification response" }
  | none => { passed := false, reason := "Item not found in verification response" }

/-- Embedding of `parseVerificationResponse`: the per-item dictionary plus the
optional numeric confidence.  When `parsedData.verification` is missing, not
an object, or `null`, every item falls back to the default failure entry. -/
def parseVerificationResponse (parsedData : Json) (checklist : VerificationChecklist) :
    List (String × VerificationItemResult) × Option ℚ :=
  match jget parsedData "verification" with
  | some v =>
    if isObjectLike v then
      (checklist.items.map (fun item => (item.id, parseVerificationEntry v item)),
       match jget parsedData "confidence" with
       | some (.num n) => some ((n : ℚ))
       | _ => none)
    else
      (checklist.items.map
        (fun item => (item.id, ⟨false, "Verification data not found in LLM response"⟩)), none)
  | none =>
    (checklist.items.map
      (fun item => (item.id, ⟨false, "Verification data not found in LLM response"⟩)), none)

/-- The pure tail of `verifyDocument` once the LLM reply has been parsed and
validated: build the checklist results, the counts, the verdict and the
confidence. -/
def verifyDocumentCore (checklist : VerificationChecklist) (parsedData : Json)
    (documentType fileName : String) (processingTime : Nat) : VerificationResult :=
  let vd := parseVerificationResponse parsedData checklist
  let checklistResults := checklist.items.map (fun item =>
    let verificationItem := assocGet vd.1 item.id
    ({ id := item.id, label := item.label
       passed := (verificationItem.map (fun r => r.passed)).getD false
       reason :=
         match verificationItem with
         | some r => if r.reason == "" then "Not checked" else r.reason
         | none => "Not checked" } : ChecklistResultEntry))
  let passedCount := (checklistResults.filter (fun e => e.passed)).length
  let totalCount := checklistResults.length
  { documentType := documentType
    fileName := fileName
    verified := passedCount == totalCount
    checklist := checklistResults
    passedCount := passedCount
    totalCount := totalCount
    processingTime := processingTime
    confidence :=
      match vd.2 with
      | some q => if q == 0 then some (95 / 100) else some q
      | none => some (95 / 100) }

/-- File fields the verify route reads. -/
structure VerifyFileInput where
  originalname : String
  documentType : String
  deriving Repr, DecidableEq

/-- Outcome of `verificationService.verifyDocument` for one file: the result,
or the thrown error's message. -/
inductive VerifyOutcome where
  | success (result : VerificationResult)
  | failure (message : String)
  deriving Repr, DecidableEq

/-- The per-document try/catch body of the POST /api/verify loop: a success
passes through; a failure synthesizes an all-items-failed result from the
checklist (`error.message || 'Verification failed'` as every reason). -/
def verifyBatchStep (checklists : String → Option VerificationChecklist)
    (file : VerifyFileInput) (outcome : VerifyOutcome) : VerificationResult :=
  match outcome with
  | .success r => r
  | .failure msg =>
    let checklist := checklists file.documentType
    { documentType := file.documentType
      fileName := file.originalname
      verified := false
      checklist :=
        (checklist.map (fun cl => cl.items.map (fun item =>
          ({ id := item.id, label := item.label, passed := false
             reason := if msg == "" then "Verification failed" else msg }
            : ChecklistResultEntry)))).getD []
      passedCount := 0
      totalCount := (checklist.map (fun cl => cl.items.length)).getD 0
      processingTime := 0
      confidence := none }

/-- The verification batch loop of the route: one result per input file, in
input order, with per-document failure containment, and the
`overallVerified = results.every(r => r.verified)` aggregation. -/
def verifyBatch (checklists : String → Option VerificationChecklist)
    (inputs : List (VerifyFileInput × VerifyOutcome)) :
    List VerificationResult × Bool :=
  let results := inputs.map (fun p => verifyBatchStep checklists p.1 p.2)
  (results, results.all (fun r => r.verified))


/-! ## Registration date math (`routes/upload.ts`) -/

/-- Days since 1970-01-01 of the civil date `(y, m, d)` with `m ∈ [1, 12]`
(the standard days-from-civil computation, on `Int` with floor division). -/
def daysFromCivil (y m d : Int) : Int :=
  let y2 := if m ≤ 2 then y - 1 else y
  let era := y2.fdiv 400
  let yoe := y2 - era * 400
  let mp := (m + 9).emod 12
  let doy := (153 * mp + 2).fdiv 5 + d - 1
  let doe := yoe * 365 + yoe.fdiv 4 - yoe.fdiv 100 + doy
  era * 146097 + doe - 719468

/-- `new Date(year, monthIndex, day)` scaled to whole days since the epoch:
the two-digit-year rule (0–99 maps to 1900–1999) and out-of-range month/day
normalization of the JavaScript Date constructor.  The constructor works in
local time; since `calculateYearsBetweenDates` only uses the difference of two
such values and rounds at the year scale, the time-of-day/DST component is
dropped from the model. -/
def jsDateDays (year monthIndex day : Int) : Int :=
  let y0 := if 0 ≤ year ∧ year ≤ 99 then 1900 + year else year
  let ym := y0 * 12 + monthIndex
  daysFromCivil (ym.fdiv 12) (ym.emod 12 + 1) 1 + (day - 1)

/-- A capture group of the date regexes: a digit run with the given length
bounds, valued by `parseInt`. -/
def groupDigits (g : List Char) (lo hi : Nat) : Option Nat :=
  if g.all isDigitChar && decide (lo ≤ g.length) && decide (g.length ≤ hi) then
    some (digitsToNat g)
  else none

/-- Split into exactly three groups on the separator (all three date regexes
use one-character separators). -/
def matchThree (sep : Char) (s : String) : Option (List Char × List Char × List Char) :=
  match splitOnChar sep s.data with
  | [a, b, c] => some (a, b, c)
  | _ => none

/-- Full-string match of `/^(\d{1,2})\.(\d{1,2})\.(\d{4})$/`, captures in
source order. -/
def matchDotFormat (s : String) : Option (Nat × Nat × Nat) :=
  match matchThree '.' s with
  | some (a, b, c) =>
    match groupDigits a 1 2, groupDigits b 1 2, groupDigits c 4 4 with
    | some g1, some g2, some g3 => some (g1, g2, g3)
    | _, _, _ => none
  | none => none

/-- Full-string match of `/^(\d{4})-(\d{1,2})-(\d{1,2})$/`, captures in
source order (year first). -/
def matchDashFormat (s : String) : Option (Nat × Nat × Nat) :=
  match matchThree '-' s with
  | some (a, b, c) =>
    match groupDigits a 4 4, groupDigits b 1 2, groupDigits c 1 2 with
    | some g1, some g2, some g3 => some (g1, g2, g3)
    | _, _, _ => none
  | none => none

/-- Full-string match of `/^(\d{1,2})\/(\d{1,2})\/(\d{4})$/`, captures in
source order. -/
def matchSlashFormat (s : String) : Option (Nat × Nat × Nat) :=
  match matchThree '/' s with
  | some (a, b, c) =>
    match groupDigits a 1 2, groupDigits b 1 2, groupDigits c 4 4 with
    | some g1, some g2, some g3 => some (g1, g2, g3)
    | _, _, _ => none
  | none => none

/-- The inner `parseDate` of `calculateYearsBetweenDates` (value in days
since the epoch).  The code destructures EVERY regex match as
`[, day, month, year]` and builds `new Date(year, month - 1, day)`, so for
the `YYYY-MM-DD` pattern the first capture (the year) is used as the day and
the last capture (the day) as the year.  The final host-defined
`new Date(dateStr)` fallback is modelled as unparseable; every theorem
instantiates dates in the three explicit formats. -/
def parseDate (dateStr : String) : Option Int :=
  if dateStr == "" || dateStr == "nicht angegeben" then none
  else
    match matchDotFormat dateStr with
    | some (g1, g2, g3) => some (jsDateDays (g3 : Int) ((g2 : Int) - 1) (g1 : Int))
    | none =>
      match matchDashFormat dateStr with
      | some (g1, g2, g3) => some (jsDateDays (g3 : Int) ((g2 : Int) - 1) (g1 : Int))
      | none =>
        match matchSlashFormat dateStr with
        | some (g1, g2, g3) => some (jsDateDays (g3 : Int) ((g2 : Int) - 1) (g1 : Int))
        | none => none

/-- Embedding of `calculateYearsBetweenDates`: parse both dates, divide the
millisecond difference by `1000*60*60*24*365.25` (i.e. days by `365.25`),
`Math.round`, and accept only `0 ≤ years ≤ 50`. -/
def calculateYearsBetweenDates (startDate endDate : String) : Option String :=
  match parseDate startDate, parseDate endDate with
  | some startDays, some endDays =>
    let diffYears : ℚ := ((endDays - startDays : Int) : ℚ) * 4 / 1461
    let years := jsRound diffYears
    if 0 ≤ years ∧ years ≤ 50 then some (toString years ++ " Jahre") else none
  | _, _ => none

/-- The `jahr` test of the textual-years regex `/(\d+)\s*Jahre?/i`, applied
to the text following the digits and whitespace. -/
def matchesJahr (l : List Char) : Bool :=
  match l with
  | j :: a :: h :: r :: _ =>
    j.toLower == 'j' && a.toLower == 'a' && h.toLower == 'h' && r.toLower == 'r'
  | _ => false

/-- Leftmost match of `/(\d+)\s*Jahre?/i`, returning the captured digit run.
The character classes are disjoint, so the regex engine's backtracking search
reduces to this scan. -/
def findJahreDigits : List Char → Option (List Char)
  | [] => none
  | c :: rest =>
    if isDigitChar c then
      let after := ((c :: rest).dropWhile isDigitChar).dropWhile isJsWs
      if matchesJahr after then some ((c :: rest).takeWhile isDigitChar)
      else findJahreDigits rest
    else findJahreDigits rest

/-- Embedding of `calculateFixzinssatzInJahren` (`none` models both
`undefined` arguments and the `null` result). -/
def calculateFixzinssatzInJahren (angebotsdatum fixzinsperiode : Option String) :
    Option String :=
  match fixzinsperiode with
  | none => none
  | some fp =>
    if fp == "" || fp == "nicht angegeben" then none
    else
      match findJahreDigits fp.data with
      | some run => some ((⟨run⟩ : String) ++ " Jahre")
      | none =>
        match angebotsdatum with
        | some ad =>
          if ad == "" || ad == "nicht angegeben" then none
          else calculateYearsBetweenDates ad fp
        | none => none

/-! ## Comparison and registration responses (`routes/upload.ts`) -/

/-- String-valued field of a parsed offer (the fragment the date helpers
consume; non-string values are outside the modelled fragment). -/
def jsStringField (v : Json) (key : String) : Option String :=
  match jget v key with
  | some (.str s) => some s
  | _ => none

/-- The per-file enrichment of both multi-file routes:
`{ ...parsedData, fileName, fixzinssatz_in_jahren: computed || 'nicht angegeben' }`.
The overriding properties are appended; `jget` (last binding wins) gives them
JavaScript object-update semantics. -/
def enrichOffer (parsedData : Json) (origName : String) : Json :=
  let fix := (calculateFixzinssatzInJahren (jsStringField parsedData "angebotsdatum")
    (jsStringField parsedData "fixzinsperiode")).getD "nicht angegeben"
  match parsedData with
  | .obj fields =>
    .obj (fields ++ [("fileName", .str origName), ("fixzinssatz_in_jahren", .str fix)])
  | v => v

/-- A `LoanOfferRecord` as built for `databaseService.saveLoanOffers` (fields
carried over verbatim from the enriched offer; `none` models `undefined`). -/
structure LoanOfferRecord where
  fileName : Json
  anbieter : Option Json
  angebotsdatum : Option Json
  kreditbetrag : Option Json
  auszahlungsbetrag : Option Json
  auszahlungsdatum : Option Json
  datum1Rate : Option Json
  laufzeit : Option Json
  ratenanzahl : Option Json
  kreditende : Option Json
  sondertilgungen : Option Json
  restwert : Option Json
  fixzinssatz : Option Json
  fixzinsperiode : Option Json
  fixzinssatz_in_jahren : Option Json
  sollzinssatz : Option Json
  effektivzinssatz : Option Json
  bearbeitungsgebuehr : Option Json
  schaetzgebuehr : Option Json
  kontofuehrungsgebuehr : Option Json
  kreditpruefkosten : Option Json
  vermittlerentgelt : Option Json
  grundbucheintragungsgebuehr : Option Json
  grundbuchseingabegebuehr : Option Json
  grundbuchsauszug : Option Json
  grundbuchsgesuch : Option Json
  legalisierungsgebuehr : Option Json
  gesamtkosten : Option Json
  gesamtbetrag : Option Json
  monatsrate : Option Json
  rawJson : String
  processingTime : Nat
  confidence : ℚ

/-- The record mapping of the registration route (`dbRecords`): every field is
copied from the offer, `rawJson` is the stringified offer, and `confidence`
is the constant `0.95` regardless of the offer's contents. -/
def buildLoanOfferRecord (offer : Json) (processingTime : Nat) : LoanOfferRecord :=
  { fileName :=
      if jsTruthy (jget offer "fileName") then (jget offer "fileName").getD Json.null
      else .str "unknown"
    anbieter := jget offer "anbieter"
    angebotsdatum := jget offer "angebotsdatum"
    kreditbetrag := jget offer "kreditbetrag"
    auszahlungsbetrag := jget offer "auszahlungsbetrag"
    auszahlungsdatum := jget offer "auszahlungsdatum"
    datum1Rate := jget offer "datum1Rate"
    laufzeit := jget offer "laufzeit"
    ratenanzahl := jget offer "ratenanzahl"
    kreditende := jget offer "kreditende"
    sondertilgungen := jget offer "sondertilgungen"
    restwert := jget offer "restwert"
    fixzinssatz := jget offer "fixzinssatz"
    fixzinsperiode := jget offer "fixzinsperiode"
    fixzinssatz_in_jahren := jget offer "fixzinssatz_in_jahren"
    sollzinssatz := jget offer "sollzinssatz"
    effektivzinssatz := jget offer "effektivzinssatz"
    bearbeitungsgebuehr := jget offer "bearbeitungsgebuehr"
    schaetzgebuehr := jget offer "schaetzgebuehr"
    kontofuehrungsgebuehr := jget offer "kontofuehrungsgebuehr"
    kreditpruefkosten := jget offer "kreditpruefkosten"
    vermittlerentgelt := jget offer "vermittlerentgelt"
    grundbucheintragungsgebuehr := jget offer "grundbucheintragungsgebuehr"
    grundbuchseingabegebuehr := jget offer "grundbuchseingabegebuehr"
    grundbuchsauszug := jget offer "grundbuchsauszug"
    grundbuchsgesuch := jget offer "grundbuchsgesuch"
    legalisierungsgebuehr := jget offer "legalisierungsgebuehr"
    gesamtkosten := jget offer "gesamtkosten"
    gesamtbetrag := jget offer "gesamtbetrag"
    monatsrate := jget offer "monatsrate"
    rawJson := jsonStringify offer
    processingTime := processingTime
    confidence := 95 / 100 }

/-- The database records of one registration request: enrichment then record
mapping, per offer in input order. -/
def buildRegistrationRecords (parsedOffers : List (Json × String)) (processingTime : Nat) :
    List LoanOfferRecord :=
  parsedOffers.map (fun p => buildLoanOfferRecord (enrichOffer p.1 p.2) processingTime)

/-- The success payload of POST /api/upload/compare. -/
structure ComparisonResponseData where
  individualOffers : List Json
  comparison : Json
  documentType : String
  processingTime : Nat
  confidence : ℚ

/-- Embedding of the `ComparisonResponse` construction: the confidence is the
literal `0.95`. -/
def buildComparisonResponse (parsedOffers : List (Json × String)) (comparison : Json)
    (documentType : String) (processingTime : Nat) : ComparisonResponseData :=
  { individualOffers := parsedOffers.map (fun p => enrichOffer p.1 p.2)
    comparison := comparison
    documentType := documentType
    processingTime := processingTime
    confidence := 95 / 100 }

/-- The success payload of POST /api/upload/register. -/
structure RegistrationResponseData where
  individualOffers : List Json
  documentType : String
  processingTime : Nat
  confidence : ℚ
  dbSuccess : Bool
  savedCount : Nat
  dbError : Option String

/-- Embedding of the `RegistrationResponse` construction: the confidence is
the literal `0.95`. -/
def buildRegistrationResponse (parsedOffers : List (Json × String)) (documentType : String)
    (processingTime : Nat) (dbSuccess : Bool) (savedCount : Nat) (dbError : Option String) :
    RegistrationResponseData :=
  { individualOffers := parsedOffers.map (fun p => enrichOffer p.1 p.2)
    documentType := documentType
    processingTime := processingTime
    confidence := 95 / 100
    dbSuccess := dbSuccess
    savedCount := savedCount
    dbError := dbError }


/-! ## Claim theorems -/

/-- Shape test used to state the object/array distinction. -/
def jsonIsObj : Json → Bool
  | .obj _ => true
  | _ => false

/-- Shape test used to state the object/array distinction. -/
def jsonIsArr : Json → Bool
  | .arr _ => true
  | _ => false

/-- C1: for every registered document type `t` and file `f`,
`validateFileForDocumentType` accepts `f` iff `f.size ≤ t.maxFileSize` and the
lowercased extension of `f.originalname` is in `t.supportedFormats`; the
checks run in the order type-existence, size, extension, so a size violation
reports the file-too-large message with the limit and an extension violation
alone reports the unsupported-format message listing the allowed set. -/
theorem validateFile_accepts_iff (documentTypes : List DocumentType) (file : MFile)
    (documentTypeId : String) (t : DocumentType)
    (hfind : getDocumentTypeById documentTypes documentTypeId = some t) :
    ((validateFileForDocumentType documentTypes file documentTypeId).isValid = true ↔
      (file.size ≤ t.maxFileSize ∧ fileExtension file.originalname ∈ t.supportedFormats)) ∧
    (t.maxFileSize < file.size →
      validateFileForDocumentType documentTypes file documentTypeId =
        ⟨false, some (fileTooLargeMsg t)⟩) ∧
    (file.size ≤ t.maxFileSize → fileExtension file.originalname ∉ t.supportedFormats →
      validateFileForDocumentType documentTypes file documentTypeId =
        ⟨false, some (unsupportedFormatMsg t)⟩) ∧
    (file.size ≤ t.maxFileSize → fileExtension file.originalname ∈ t.supportedFormats →
      validateFileForDocumentType documentTypes file documentTypeId = ⟨true, none⟩) := by
  unfold validateFileForDocumentType
  simp only [hfind]
  by_cases hsz : file.size > t.maxFileSize
  · rw [if_pos hsz]
    refine ⟨?_, fun _ => rfl, ?_, ?_⟩
    · constructor
      · intro h
        simp at h
      · intro h
        exact absurd h.1 (by omega)
    · intro h _
      exact absurd h (by omega)
    · intro h _
      exact absurd h (by omega)
  · rw [if_neg hsz]
    by_cases hext : fileExtension file.originalname ∈ t.supportedFormats
    · have hc : t.supportedFormats.contains (fileExtension file.originalname) = true :=
        List.elem_iff.mpr hext
      rw [show (!(t.supportedFormats.contains (fileExtension file.originalname))) = false from by
        rw [hc]; rfl]
      rw [if_neg (by simp)]
      refine ⟨?_, ?_, ?_, fun _ _ => rfl⟩
      · constructor
        · intro _
          exact ⟨by omega, hext⟩
        · intro _
          rfl
      · intro h
        exact absurd h (by omega)
      · intro _ h
        exact absurd hext h
    · have hc : t.supportedFormats.contains (fileExtension file.originalname) = false := by
        rw [← Bool.not_eq_true]
        intro hcon
        exact hext (List.elem_iff.mp hcon)
      rw [show (!(t.supportedFormats.contains (fileExtension file.originalname))) = true from by
        rw [hc]; rfl]
      rw [if_pos rfl]
      refine ⟨?_, ?_, fun _ _ => rfl, ?_⟩
      · constructor
        · intro h
          simp at h
        · intro h
          exact absurd h.2 hext
      · intro h
        exact absurd h (by omega)
      · intro _ h
        exact absurd h hext

/-- C1 witness: a small PDF named `Scan.PDF` is accepted for the default
`invoice` type. -/
theorem validateFile_accepts_iff_witness :
    (validateFileForDocumentType getDefaultDocumentTypes ⟨"Scan.PDF", 5000⟩
      "invoice").isValid = true := by
  have h := (validateFile_accepts_iff getDefaultDocumentTypes ⟨"Scan.PDF", 5000⟩ "invoice"
    { id := "invoice", name := "Rechnung", description := "Rechnungsdaten extrahieren",
      supportedFormats := ["pdf", "png", "jpg", "jpeg"], maxFileSize := 10 * 1024 * 1024,
      promptTemplate := "invoice_prompt.txt", maxFiles := none, minFiles := none } rfl).1
  exact h.mpr (by decide)

/-- C2 counterexample: the reply `[1,2]` parses to a JSON array — not a
non-null JSON object — yet `validateLLMResponse` ACCEPTS it, because the
code's `typeof parsed === 'object'` test classifies JavaScript arrays as
objects. -/
theorem validateLLMResponse_accepts_array :
    validateLLMResponse "[1,2]" = .ok (Json.arr [Json.num 1, Json.num 2]) ∧
    jsonIsObj (Json.arr [Json.num 1, Json.num 2]) = false := by
  exact ⟨rfl, rfl⟩

/-- C2 (amended): `validateLLMResponse` succeeds exactly when the recovered
top-level JSON value is a non-null object OR an array (JavaScript `typeof`
classes arrays as objects); scalars and `null` are rejected as an invalid
response format. -/
theorem validateLLMResponse_ok_iff (s : String) (v : Json) :
    (validateLLMResponse s = .ok v ↔
      jsonParse ⟨cleanResponse s⟩ = some v ∧ (jsonIsObj v || jsonIsArr v) = true) ∧
    (jsonParse ⟨cleanResponse s⟩ = some v → (jsonIsObj v || jsonIsArr v) = false →
      validateLLMResponse s = .invalid "Response is not a valid JSON object") := by
  have key : ∀ (o : Option Json),
      (classifyParsed o = .ok v ↔ o = some v ∧ (jsonIsObj v || jsonIsArr v) = true) ∧
      (o = some v → (jsonIsObj v || jsonIsArr v) = false →
        classifyParsed o = .invalid "Response is not a valid JSON object") := by
    intro o
    cases o with
    | none =>
      refine ⟨⟨fun h => by simp [classifyParsed] at h, fun h => by simp at h⟩,
        fun h1 _ => by simp at h1⟩
    | some w =>
      cases w with
      | obj fields =>
        refine ⟨⟨fun h => ?_, fun h => ?_⟩, fun h1 h2 => ?_⟩
        · simp only [classifyParsed] at h
          injection h with h3
          subst h3
          exact ⟨rfl, rfl⟩
        · obtain ⟨ha, hb⟩ := h
          injection ha with h3
          subst h3
          rfl
        · injection h1 with h3
          subst h3
          simp [jsonIsObj] at h2
      | arr elems =>
        refine ⟨⟨fun h => ?_, fun h => ?_⟩, fun h1 h2 => ?_⟩
        · simp only [classifyParsed] at h
          injection h with h3
          subst h3
          exact ⟨rfl, rfl⟩
        · obtain ⟨ha, hb⟩ := h
          injection ha with h3
          subst h3
          rfl
        · injection h1 with h3
          subst h3
          simp [jsonIsArr] at h2
      | null =>
        refine ⟨⟨fun h => by simp [classifyParsed] at h, fun h => ?_⟩, fun h1 h2 => rfl⟩
        obtain ⟨ha, hb⟩ := h
        injection ha with h3
        subst h3
        simp [jsonIsObj, jsonIsArr] at hb
      | bool b =>
        refine ⟨⟨fun h => by simp [classifyParsed] at h, fun h => ?_⟩, fun h1 h2 => rfl⟩
        obtain ⟨ha, hb⟩ := h
        injection ha with h3
        subst h3
        simp [jsonIsObj, jsonIsArr] at hb
      | num n =>
        refine ⟨⟨fun h => by simp [classifyParsed] at h, fun h => ?_⟩, fun h1 h2 => rfl⟩
        obtain ⟨ha, hb⟩ := h
        injection ha with h3
        subst h3
        simp [jsonIsObj, jsonIsArr] at hb
      | str s2 =>
        refine ⟨⟨fun h => by simp [classifyParsed] at h, fun h => ?_⟩, fun h1 h2 => rfl⟩
        obtain ⟨ha, hb⟩ := h
        injection ha with h3
        subst h3
        simp [jsonIsObj, jsonIsArr] at hb
  exact key (jsonParse ⟨cleanResponse s⟩)

/-- C2 witness: a genuine object reply is accepted with that object. -/
theorem validateLLMResponse_ok_iff_witness :
    validateLLMResponse "\x7b\"a\":1\x7d" = .ok (Json.obj [("a", Json.num 1)]) :=
  (validateLLMResponse_ok_iff "\x7b\"a\":1\x7d" (Json.obj [("a", Json.num 1)])).1.mpr
    ⟨by rfl, by rfl⟩

/-- Brace-depth scan: `true` when the depth ends at zero and never goes
negative (the usual notion of a balanced brace string, used to state the
only-balanced-span premise the spec puts on the reply). -/
def braceBalAux : List Char → Int → Bool
  | [], d => d == 0
  | c :: l, d =>
    let d2 : Int := if c = '{' then d + 1 else if c = '}' then d - 1 else d
    if d2 < 0 then false else braceBalAux l d2

/-- A balanced brace string. -/
def balancedBraces (l : List Char) : Bool :=
  braceBalAux l 0

/-- The slice of `l` from index `i` to index `j` inclusive. -/
def spanSlice (l : List Char) (i j : Nat) : List Char :=
  (l.drop i).take (j - i + 1)

/-- `(i, j)` delimits a balanced brace span of `l`: an opening brace at `i`, a
closing brace at `j`, and the slice between them balanced. -/
def isBalancedBraceSpan (l : List Char) (i j : Nat) : Bool :=
  decide (i < j) && decide (j < l.length) && (l.getD i ' ' == '{') &&
    (l.getD j ' ' == '}') && balancedBraces (spanSlice l i j)

/-- Every balanced brace span of `l`, in lexicographic order. -/
def balancedSpans (l : List Char) : List (Nat × Nat) :=
  ((List.range l.length).map (fun i =>
    (List.range l.length).filterMap (fun j =>
      if isBalancedBraceSpan l i j then some (i, j) else none))).flatten

/-- C3 counterexample: the serialized object is the only balanced brace span
of the reply, its text being the slice at the unique span, yet
`validateLLMResponse` reports invalid JSON: `lastIndexOf` picks the stray
closing brace of the trailing prose, so the code's slice extends past the
object and no longer parses.  The only-balanced-span premise is therefore not
sufficient for recovery. -/
theorem validateLLMResponse_only_span_insufficient :
    "\x7b\"a\":1\x7d x\x7d".data =
        serializeJson (Json.obj [("a", Json.num 1)]) ++ " x\x7d".data ∧
    balancedSpans "\x7b\"a\":1\x7d x\x7d".data = [(0, 6)] ∧
    spanSlice "\x7b\"a\":1\x7d x\x7d".data 0 6 =
        serializeJson (Json.obj [("a", Json.num 1)]) ∧
    validateLLMResponse "\x7b\"a\":1\x7d x\x7d" = .invalid "Invalid JSON response" := by
  have hser : serializeJson (Json.obj [("a", Json.num 1)]) = "\x7b\"a\":1\x7d".data := by
    simp [serializeJson, serializeMembers, escapeList, escapeChar, natToChars, digitChar]
  refine ⟨?_, by decide, ?_, by rfl⟩
  · rw [hser]; rfl
  · rw [hser]; decide

/-- C3 witness: a fenced, prose-wrapped object reply is recovered exactly. -/
theorem validateLLMResponse_recovers_obj_witness :
    validateLLMResponse ("```json\nHere is the result: " ++
        jsonStringify (Json.obj [("a", Json.num 1)]) ++ " done\n```") =
      .ok (Json.obj [("a", Json.num 1)]) :=
  validateLLMResponse_recovers_obj [("a", Json.num 1)] "```json\nHere is the result: "
    " done\n```" (by decide) (by decide)

/-- Every required-field list of the scored document types is non-empty. -/
theorem requiredFields_length_pos (documentType : String) (required : List String)
    (h : requiredFields documentType = some required) : 0 < required.length := by
  unfold requiredFields at h
  split_ifs at h <;>
    first
      | (injection h with h2; subst h2; decide)
      | simp at h

/-- C4 counterexample: `haushaltsrechnung` is a registered document type, yet
`calculateConfidence` does not return a number in `[0, 1]` for it: no branch
of the `if` chain matches, `score` and `totalFields` stay `0`, and the final
`score / totalFields` is JavaScript `0 / 0 = NaN` (modelled as `none`), which
`Math.min`/`Math.max` propagate — not a numeric value in the interval. -/
theorem calculateConfidence_nan :
    ((getDefaultDocumentTypes.map DocumentType.id).contains "haushaltsrechnung" = true) ∧
    calculateConfidence (Json.obj [("gesamteinnahmen", Json.num 3500)]) "haushaltsrechnung" =
      none :=
  ⟨rfl, rfl⟩

/-- C4 (amended): `calculateConfidence` never throws, and for every document
type in the scored set (those with a declared required-field list) it returns
a numeric value in `[0, 1]`; for every other document type it returns `NaN`
(modelled `none`), which is numeric but outside the claimed interval. -/
theorem calculateConfidence_total (extractedData : Json) (documentType : String) :
    (∀ required, requiredFields documentType = some required →
      ∃ q, calculateConfidence extractedData documentType = some q ∧ 0 ≤ q ∧ q ≤ 1) ∧
    (requiredFields documentType = none →
      calculateConfidence extractedData documentType = none) := by
  constructor
  · intro required hreq
    have hpos := requiredFields_length_pos documentType required hreq
    simp only [calculateConfidence, hreq]
    rw [if_neg (by omega)]
    exact ⟨_, rfl, le_min (le_max_right _ 0) zero_le_one, min_le_right _ 1⟩
  · intro hnone
    simp [calculateConfidence, hnone]

/-- C4 witness: a populated business card scores inside `[0, 1]`. -/
theorem calculateConfidence_total_witness :
    ∃ q, calculateConfidence (Json.obj [("name", Json.str "Ada")]) "business_card" =
      some q ∧ 0 ≤ q ∧ q ≤ 1 :=
  (calculateConfidence_total (Json.obj [("name", Json.str "Ada")]) "business_card").1
    ["name"] (by rfl)

/-- C5 counterexample: an invoice record with `vendorName` populated and one
field `buyer` outside the invoice required set.  The claimed formula counts
`buyer` as a bonus field (score `(1 + 0.5) / 4 = 3/8`), but the code's bonus
filter uses one fixed exclusion list — the union of every scored type's
required fields — in which `buyer` appears, so the code pays no bonus and
returns `1/4`. -/
theorem calculateConfidence_bonus_set_differs :
    calculateConfidence
        (Json.obj [("vendorName", Json.str "x"), ("buyer", Json.str "y")]) "invoice" =
      some (1 / 4) ∧
    specConfidenceFormula ["vendorName", "invoiceNumber", "invoiceDate", "totalAmount"]
        (Json.obj [("vendorName", Json.str "x"), ("buyer", Json.str "y")]) = 3 / 8 ∧
    (1 / 4 : ℚ) ≠ 3 / 8 := by
  refine ⟨?_, ?_, by norm_num⟩
  · simp [calculateConfidence, requiredFields, fieldPresent, jget, objectKeys,
      globalRequiredUnion]
    norm_num
  · simp [specConfidenceFormula, fieldPresent, jget, objectKeys]
    norm_num

/-- C5 (amended): for a document type with a declared required-field list the
score is `clamp((present + min(extra * 0.5, n * 0.5)) / n, 0, 1)` where
`extra` counts the record's fields outside the FIXED UNION of all scored
types' required fields — not outside the type's own required set as claimed.
The claim's invoice example is unaffected (see the witness): its only fields
are invoice-required ones, so both readings give `0.75`. -/
theorem calculateConfidence_closed_form (extractedData : Json) (documentType : String)
    (required : List String) (hreq : requiredFields documentType = some required) :
    calculateConfidence extractedData documentType =
      some (min (max
        ((((required.filter (fun f => fieldPresent extractedData f)).length : ℚ) +
          min ((((objectKeys extractedData).filter
            (fun key => !(globalRequiredUnion.contains key))).length : ℚ) * (1 / 2))
            ((required.length : ℚ) * (1 / 2))) / (required.length : ℚ)) 0) 1) := by
  have hpos := requiredFields_length_pos documentType required hreq
  simp only [calculateConfidence, hreq]
  rw [if_neg (by omega)]

/-- C5 witness: the spec's end-to-end invoice record scores exactly `0.75`. -/
theorem calculateConfidence_closed_form_witness :
    calculateConfidence
        (Json.obj [("vendorName", Json.str "Acme"), ("invoiceNumber", Json.str "123"),
          ("invoiceDate", Json.null), ("totalAmount", Json.num 450)]) "invoice" =
      some (3 / 4) := by
  rw [calculateConfidence_closed_form
    (Json.obj [("vendorName", Json.str "Acme"), ("invoiceNumber", Json.str "123"),
      ("invoiceDate", Json.null), ("totalAmount", Json.num 450)]) "invoice"
    ["vendorName", "invoiceNumber", "invoiceDate", "totalAmount"] (by rfl)]
  simp [fieldPresent, jget, objectKeys, globalRequiredUnion]
  norm_num

/-- `find?` over an association list whose values are a function of the key
returns the value at the key whenever the key occurs. -/
theorem find_keyed (g : String → VerificationItemResult) (m : List String) (key : String)
    (hmem : key ∈ m) :
    (List.find? (fun p => p.1 == key) (m.map (fun k => (k, g k)))).map (fun p => p.2) =
      some (g key) := by
  induction m with
  | nil => simp at hmem
  | cons a t ih =>
    simp only [List.map_cons, List.find?_cons]
    by_cases ha : a = key
    · subst ha
      simp
    · have hne : ((a, g a).1 == key) = false := by simpa using ha
      rw [hne]
      exact ih (by rcases List.mem_cons.mp hmem with h | h; exact absurd h.symm ha; exact h)

/-- `assocGet` on a keyed map: last-binding-wins lookup agrees with the keying
function on every present key. -/
theorem assocGet_keyed (g : String → VerificationItemResult) (m : List String) (key : String)
    (hmem : key ∈ m) :
    assocGet (m.map (fun k => (k, g k))) key = some (g key) := by
  unfold assocGet
  rw [← List.map_reverse]
  exact find_keyed g m.reverse key (by simpa using hmem)

/-- C6: the result of `verifyDocument` carries exactly one checklist entry per
checklist item, with ids and labels preserved in order (none dropped, none
added, `totalCount` the checklist length); when the reply has a verification
object, each entry takes that item's parsed passed/reason (absent items
falling back to the not-found failure entry inside
`parseVerificationEntry`); and `verified` holds iff `passedCount = totalCount`
iff every entry passed. -/
theorem verifyDocumentCore_c6 (checklist : VerificationChecklist) (parsedData : Json)
    (documentType fileName : String) (processingTime : Nat) :
    (verifyDocumentCore checklist parsedData documentType fileName processingTime).totalCount =
      checklist.items.length ∧
    (verifyDocumentCore checklist parsedData documentType fileName
        processingTime).checklist.map (fun e => (e.id, e.label)) =
      checklist.items.map (fun i => (i.id, i.label)) ∧
    (∀ verification, jget parsedData "verification" = some verification →
      isObjectLike verification = true →
      (verifyDocumentCore checklist parsedData documentType fileName processingTime).checklist =
        checklist.items.map (fun item =>
          { id := item.id, label := item.label
            passed := (parseVerificationEntry verification item).passed
            reason :=
              if (parseVerificationEntry verification item).reason == "" then "Not checked"
              else (parseVerificationEntry verification item).reason })) ∧
    ((verifyDocumentCore checklist parsedData documentType fileName processingTime).verified =
        true ↔
      (verifyDocumentCore checklist parsedData documentType fileName
          processingTime).passedCount =
        (verifyDocumentCore checklist parsedData documentType fileName
          processingTime).totalCount) ∧
    ((verifyDocumentCore checklist parsedData documentType fileName processingTime).verified =
        true ↔
      (verifyDocumentCore checklist parsedData documentType fileName
          processingTime).checklist.all (fun e => e.passed) = true) := by
  refine ⟨?_, ?_, ?_, ?_, ?_⟩
  · simp [verifyDocumentCore]
  · simp only [verifyDocumentCore, List.map_map]
    rfl
  · intro verification hver hobj
    simp only [verifyDocumentCore, parseVerificationResponse, hver, hobj, if_pos]
    apply List.map_congr_left
    intro item hitem
    have hg : assocGet
        (checklist.items.map (fun it => (it.id, parseVerificationEntry verification it)))
        item.id = some (parseVerificationEntry verification item) := by
      have hrw : checklist.items.map
          (fun it => (it.id, parseVerificationEntry verification it)) =
          (checklist.items.map (fun it => it.id)).map
            (fun k => (k, parseVerificationEntry verification ⟨k, "", ""⟩)) := by
        rw [List.map_map]
        rfl
      rw [hrw,
        assocGet_keyed (fun k => parseVerificationEntry verification ⟨k, "", ""⟩)
          (checklist.items.map (fun it => it.id)) item.id
          (List.mem_map_of_mem _ hitem)]
      rfl
    rw [hg]
    rfl
  · simp only [verifyDocumentCore]
    exact beq_iff_eq
  · simp only [verifyDocumentCore]
    rw [List.all_eq_true]
    constructor
    · intro h e he
      exact List.filter_length_eq_length.mp (beq_iff_eq.mp h) e he
    · intro h
      exact beq_iff_eq.mpr (List.filter_length_eq_length.mpr h)

/-- Five-item checklist of the spec's verification scenario. -/
def c6Checklist : VerificationChecklist :=
  ⟨[⟨"i1", "L1", ""⟩, ⟨"i2", "L2", ""⟩, ⟨"i3", "L3", ""⟩, ⟨"i4", "L4", ""⟩, ⟨"i5", "L5", ""⟩]⟩

/-- A reply's verification object covering only three of the five items. -/
def c6Verification : Json :=
  Json.obj [("i1", Json.obj [("passed", Json.bool true)]),
            ("i2", Json.obj [("passed", Json.bool true)]),
            ("i3", Json.obj [("passed", Json.bool false)])]

/-- The parsed reply wrapping `c6Verification`. -/
def c6Reply : Json := Json.obj [("verification", c6Verification)]

/-- C6 witness: five items, reply covering three — `totalCount` is 5, the two
missing items fail with the not-found reason, and the document is not
verified. -/
theorem verifyDocumentCore_c6_witness :
    (verifyDocumentCore c6Checklist c6Reply "kaufvertrag" "a.pdf" 7).checklist =
      [⟨"i1", "L1", true, "No reason provided"⟩,
       ⟨"i2", "L2", true, "No reason provided"⟩,
       ⟨"i3", "L3", false, "No reason provided"⟩,
       ⟨"i4", "L4", false, "Item not found in verification response"⟩,
       ⟨"i5", "L5", false, "Item not found in verification response"⟩] ∧
    (verifyDocumentCore c6Checklist c6Reply "kaufvertrag" "a.pdf" 7).totalCount = 5 ∧
    (verifyDocumentCore c6Checklist c6Reply "kaufvertrag" "a.pdf" 7).verified = false := by
  have h := verifyDocumentCore_c6 c6Checklist c6Reply "kaufvertrag" "a.pdf" 7
  refine ⟨?_, ?_, ?_⟩
  · rw [h.2.2.1 c6Verification rfl rfl]
    rfl
  · exact h.1.trans rfl
  · rfl

/-- C7: the verification batch produces one result per input file in input
order; a successful document's result passes through unchanged at its
position; a failed document yields, at its position, a synthesized result —
not verified, zero passed, one failed entry per checklist item, each carrying
the failure message — and the batch continues; `overallVerified` holds iff
every per-document result is verified. -/
theorem verifyBatch_c7 (checklists : String → Option VerificationChecklist)
    (inputs : List (VerifyFileInput × VerifyOutcome)) :
    (verifyBatch checklists inputs).1.length = inputs.length ∧
    ((verifyBatch checklists inputs).2 = true ↔
      ∀ r ∈ (verifyBatch checklists inputs).1, r.verified = true) ∧
    (∀ i : Nat, ∀ file : VerifyFileInput, ∀ result : VerificationResult,
      inputs[i]? = some (file, .success result) →
      (verifyBatch checklists inputs).1[i]? = some result) ∧
    (∀ i : Nat, ∀ file : VerifyFileInput, ∀ msg : String, ∀ cl : VerificationChecklist,
      inputs[i]? = some (file, .failure msg) → checklists file.documentType = some cl →
      msg ≠ "" →
      ∃ r, (verifyBatch checklists inputs).1[i]? = some r ∧
        r.documentType = file.documentType ∧ r.fileName = file.originalname ∧
        r.verified = false ∧ r.passedCount = 0 ∧ r.totalCount = cl.items.length ∧
        r.checklist.length = cl.items.length ∧
        ∀ e ∈ r.checklist, e.passed = false ∧ e.reason = msg) := by
  refine ⟨by simp [verifyBatch], ?_, ?_, ?_⟩
  · simp only [verifyBatch]
    exact List.all_eq_true
  · intro i file result h
    simp only [verifyBatch, List.getElem?_map, h, Option.map_some']
    rfl
  · intro i file msg cl h hcl hmsg
    refine ⟨verifyBatchStep checklists file (.failure msg), ?_, rfl, rfl, rfl, rfl, ?_, ?_, ?_⟩
    · simp only [verifyBatch, List.getElem?_map, h, Option.map_some']
    · simp [verifyBatchStep, hcl]
    · simp [verifyBatchStep, hcl]
    · intro e he
      simp only [verifyBatchStep, hcl, Option.map_some', Option.getD_some] at he
      obtain ⟨item, hit, rfl⟩ := List.mem_map.mp he
      exact ⟨rfl, by simp [hmsg]⟩

/-- Checklist registry of the batch witness: one kaufvertrag checklist. -/
def c7Checklists : String → Option VerificationChecklist :=
  fun t => if t == "kaufvertrag" then some ⟨[⟨"k1", "K1", ""⟩]⟩ else none

/-- A successful per-document result for the batch witness. -/
def c7OkResult : VerificationResult :=
  { documentType := "kaufvertrag", fileName := "a.pdf", verified := true
    checklist := [⟨"k1", "K1", true, "ok"⟩], passedCount := 1, totalCount := 1
    processingTime := 3, confidence := some (9 / 10) }

/-- A two-document batch: one success, one pipeline failure. -/
def c7Inputs : List (VerifyFileInput × VerifyOutcome) :=
  [(⟨"a.pdf", "kaufvertrag"⟩, .success c7OkResult),
   (⟨"b.pdf", "kaufvertrag"⟩, .failure "LLM timeout")]

/-- C7 witness: in a two-document batch whose second document fails, both
results are produced in order, the second is synthesized all-failed with the
failure message, and the batch is not overall-verified. -/
theorem verifyBatch_c7_witness :
    ((verifyBatch c7Checklists c7Inputs).1.length = 2) ∧
    ((verifyBatch c7Checklists c7Inputs).1[0]? = some c7OkResult) ∧
    (∃ r, (verifyBatch c7Checklists c7Inputs).1[1]? = some r ∧ r.verified = false ∧
      r.passedCount = 0 ∧ r.totalCount = 1 ∧
      ∀ e ∈ r.checklist, e.passed = false ∧ e.reason = "LLM timeout") ∧
    ((verifyBatch c7Checklists c7Inputs).2 = false) := by
  have h := verifyBatch_c7 c7Checklists c7Inputs
  refine ⟨h.1.trans rfl,
    h.2.2.1 0 ⟨"a.pdf", "kaufvertrag"⟩ c7OkResult rfl, ?_, rfl⟩
  obtain ⟨r, hr, hdoc, hfile, hver, hpc, htc, hlen, hall⟩ :=
    h.2.2.2 1 ⟨"b.pdf", "kaufvertrag"⟩ "LLM timeout" ⟨[⟨"k1", "K1", ""⟩]⟩ rfl rfl (by decide)
  exact ⟨r, hr, hver, hpc, htc.trans rfl, hall⟩

/-- C8 counterexample: `invoice` is registered, and with a prompts directory
that has no files at all (its declared template file is missing),
`getPromptTemplate` does NOT return null: it returns the hard-coded default
template for the id — a runtime fallback, not the claimed fatal
configuration error. -/
theorem getPromptTemplate_fallback_counterexample :
    (getDocumentTypeById getDefaultDocumentTypes "invoice").isSome = true ∧
    getPromptTemplate (fun _ => none) getDefaultDocumentTypes "invoice" =
      some (getDefaultPromptTemplate "invoice") ∧
    getPromptTemplate (fun _ => none) getDefaultDocumentTypes "invoice" ≠ none := by
  refine ⟨rfl, rfl, ?_⟩
  intro hcontra
  rw [show getPromptTemplate (fun _ => none) getDefaultDocumentTypes "invoice" =
    some (getDefaultPromptTemplate "invoice") from rfl] at hcontra
  exact Option.noConfusion hcontra

/-- C8 (amended): for every registered document type whose declared template
file is missing from the prompts directory, `getPromptTemplate` falls back to
the built-in default template for that document type id instead of returning
null. -/
theorem getPromptTemplate_falls_back (promptsDir : String → Option String)
    (documentTypes : List DocumentType) (documentTypeId : String) (t : DocumentType)
    (hfind : getDocumentTypeById documentTypes documentTypeId = some t)
    (hmissing : promptsDir t.promptTemplate = none) :
    getPromptTemplate promptsDir documentTypes documentTypeId =
      some (getDefaultPromptTemplate documentTypeId) := by
  simp only [getPromptTemplate, hfind, hmissing]

/-- C8 witness: the registered `invoice` type with its template file missing
receives the built-in invoice default. -/
theorem getPromptTemplate_falls_back_witness :
    getPromptTemplate (fun _ => none) getDefaultDocumentTypes "invoice" =
      some (getDefaultPromptTemplate "invoice") :=
  getPromptTemplate_falls_back (fun _ => none) getDefaultDocumentTypes "invoice"
    { id := "invoice", name := "Rechnung", description := "Rechnungsdaten extrahieren",
      supportedFormats := ["pdf", "png", "jpg", "jpeg"], maxFileSize := 10 * 1024 * 1024,
      promptTemplate := "invoice_prompt.txt", maxFiles := none, minFiles := none }
    rfl rfl

/-- Evaluation shape of `calculateYearsBetweenDates` once both parses and the
rounded year count are known. -/
theorem calculateYearsBetweenDates_eval (s e : String) (ds de : Int)
    (hs : parseDate s = some ds) (he : parseDate e = some de) (y : Int)
    (hy : jsRound (((de - ds : Int) : ℚ) * 4 / 1461) = y) :
    calculateYearsBetweenDates s e =
      if 0 ≤ y ∧ y ≤ 50 then some (toString y ++ " Jahre") else none := by
  simp only [calculateYearsBetweenDates, hs, he, hy]

/-- `Math.round` by its defining inequalities. -/
theorem jsRound_eval (q : ℚ) (y : Int) (h1 : (y : ℚ) ≤ q + 1 / 2) (h2 : q + 1 / 2 < y + 1) :
    jsRound q = y := by
  unfold jsRound
  rw [Int.floor_eq_iff]
  exact ⟨h1, h2⟩

/-- C9: the textual-years path and the `DD.MM.YYYY` date path behave as
claimed — `10 Jahre` is returned unchanged, `01.01.2020` to `01.01.2027`
gives `7 Jahre`, and out-of-range differences (79 years, negative) are
rejected as unavailable — but the `YYYY-MM-DD` branch contradicts the claim:
the code destructures every regex match as `[, day, month, year]` while the
dash pattern captures the year FIRST, so the day and year captures are
swapped and the same seven-year pair written as `2020-01-01` / `2027-01-01`
yields `0 Jahre` (the two mis-built dates differ by seven days, not seven
years). -/
theorem calculateFixzinssatzInJahren_c9 :
    calculateFixzinssatzInJahren (some "01.01.2020") (some "10 Jahre") = some "10 Jahre" ∧
    calculateFixzinssatzInJahren (some "01.01.2020") (some "01.01.2027") = some "7 Jahre" ∧
    calculateFixzinssatzInJahren (some "01.01.2020") (some "01.01.2099") = none ∧
    calculateFixzinssatzInJahren (some "01.01.2020") (some "01.01.2010") = none ∧
    calculateFixzinssatzInJahren (some "2020-01-01") (some "2027-01-01") = some "0 Jahre" ∧
    calculateFixzinssatzInJahren (some "2020-01-01") (some "2027-01-01") ≠ some "7 Jahre" := by
  have h27 : calculateFixzinssatzInJahren (some "01.01.2020") (some "01.01.2027") =
      some "7 Jahre" := by
    show calculateYearsBetweenDates "01.01.2020" "01.01.2027" = some "7 Jahre"
    rw [calculateYearsBetweenDates_eval "01.01.2020" "01.01.2027" 18262 20819 (by decide)
      (by decide) 7 (jsRound_eval _ 7 (by norm_num) (by norm_num))]
    rfl
  have h99 : calculateFixzinssatzInJahren (some "01.01.2020") (some "01.01.2099") = none := by
    show calculateYearsBetweenDates "01.01.2020" "01.01.2099" = none
    rw [calculateYearsBetweenDates_eval "01.01.2020" "01.01.2099" 18262 47117 (by decide)
      (by decide) 79 (jsRound_eval _ 79 (by norm_num) (by norm_num))]
    rfl
  have h10 : calculateFixzinssatzInJahren (some "01.01.2020") (some "01.01.2010") = none := by
    show calculateYearsBetweenDates "01.01.2020" "01.01.2010" = none
    rw [calculateYearsBetweenDates_eval "01.01.2020" "01.01.2010" 18262 14610 (by decide)
      (by decide) (-10) (jsRound_eval _ (-10) (by norm_num) (by norm_num))]
    rfl
  have hdash : calculateFixzinssatzInJahren (some "2020-01-01") (some "2027-01-01") =
      some "0 Jahre" := by
    show calculateYearsBetweenDates "2020-01-01" "2027-01-01" = some "0 Jahre"
    rw [calculateYearsBetweenDates_eval "2020-01-01" "2027-01-01" (-23183) (-23176)
      (by decide) (by decide) 0 (jsRound_eval _ 0 (by norm_num) (by norm_num))]
    rfl
  refine ⟨rfl, h27, h99, h10, hdash, ?_⟩
  rw [hdash]
  intro hcontra
  injection hcontra with hs2
  exact absurd hs2 (by decide)

/-- C10: the comparison response, the registration response, and every
persisted registration record carry the constant confidence `0.95`,
independent of the offers' contents — the completeness-based scorer is not
applied on these two paths. -/
theorem registration_comparison_confidence_constant
    (parsedOffers : List (Json × String)) (comparison : Json) (documentType : String)
    (processingTime : Nat) (dbSuccess : Bool) (savedCount : Nat) (dbError : Option String) :
    (buildComparisonResponse parsedOffers comparison documentType processingTime).confidence =
      95 / 100 ∧
    (buildRegistrationResponse parsedOffers documentType processingTime dbSuccess savedCount
      dbError).confidence = 95 / 100 ∧
    ∀ rec2 ∈ buildRegistrationRecords parsedOffers processingTime,
      rec2.confidence = 95 / 100 := by
  refine ⟨rfl, rfl, ?_⟩
  intro rec2 hrec
  obtain ⟨p, hp, rfl⟩ := List.mem_map.mp hrec
  rfl

/-- C10 witness: a one-offer comparison and registration both report `0.95`,
and the offer's persisted record stores `0.95`. -/
theorem registration_comparison_confidence_constant_witness :
    (buildComparisonResponse [(Json.obj [], "a.pdf")] Json.null "angebotsvergleich"
      5).confidence = 95 / 100 ∧
    (buildLoanOfferRecord (enrichOffer (Json.obj []) "a.pdf") 5).confidence = 95 / 100 :=
  ⟨(registration_comparison_confidence_constant [(Json.obj [], "a.pdf")] Json.null
      "angebotsvergleich" 5 true 1 none).1,
   (registration_comparison_confidence_constant [(Json.obj [], "a.pdf")] Json.null
      "angebotsvergleich" 5 true 1 none).2.2
     (buildLoanOfferRecord (enrichOffer (Json.obj []) "a.pdf") 5)
     (List.mem_singleton.mpr rfl)⟩

end DocParser
